import Mathlib

/-!
Verification of the `sig` fine-grained reactive runtime.

This file gives a shallow embedding, in Lean, of the core of the runtime
(signals, memos, effects, the height-indexed priority heap, the scheduler,
the batcher and the flush loop) and proves or refutes the specified
properties against it.

Conventions of the embedding:
* Go `any` values are modelled by the inductive `GoVal`; the reflection
  based equality `isEqual` is translated structurally (nil checks, type
  check, direct equality for comparable kinds, recursive deep equality
  for slices).
* Machine integers (`int64` clock ticks, counters) are modelled by
  `Int`/`Nat`; none of the modelled code relies on overflow.
* Intrusive doubly-linked lists (subscriber lists, heap buckets, owner
  children) are modelled by Lean `List`s holding the elements in the
  same traversal order as the Go lists.
* Mutexes and atomics are dropped: all the verified claims are about a
  single goroutine driving one runtime, where the Go code is sequential.
* Loops without a structural bound in the source (the heap drain, whose
  `process` callback may insert) take an explicit fuel argument; the
  theorems supply enough fuel for the executions they describe.
-/

namespace Sig

/-- Go `any` values as the runtime stores them: `goNil` is the untyped
`nil`, `int`, `str` and `ptr` are comparable kinds, `slice` is a
non-comparable kind that `reflect.DeepEqual` compares structurally. -/
inductive GoVal where
  | goNil : GoVal
  | int (n : Int) : GoVal
  | str (s : String) : GoVal
  | ptr (addr : Nat) : GoVal
  | slice (elems : List GoVal) : GoVal
deriving Repr

namespace GoVal

/-- Whether two values have the same dynamic type (`reflect.Type` equality;
two slices are taken to have the same element type in this model). -/
def sameType : GoVal → GoVal → Bool
  | .goNil, .goNil => true
  | .int _, .int _ => true
  | .str _, .str _ => true
  | .ptr _, .ptr _ => true
  | .slice _, .slice _ => true
  | _, _ => false

/-- Whether the value's type is comparable in the Go sense (`==` is
defined on it). Slices are not comparable. -/
def comparable : GoVal → Bool
  | .slice _ => false
  | _ => true

/-- Whether the value is the untyped `nil`. -/
def isNil : GoVal → Bool
  | .goNil => true
  | _ => false

mutual

/-- Structural equality of values: Go `==` on the comparable kinds
(pointer equality for `ptr`), elementwise comparison on slices as
`reflect.DeepEqual` performs it. -/
def beq : GoVal → GoVal → Bool
  | .goNil, .goNil => true
  | .int a, .int b => a == b
  | .str a, .str b => a == b
  | .ptr a, .ptr b => a == b
  | .slice a, .slice b => beqList a b
  | _, _ => false

/-- Elementwise structural equality of slices. -/
def beqList : List GoVal → List GoVal → Bool
  | [], [] => true
  | a :: as, b :: bs => beq a b && beqList as bs
  | _, _ => false

end

end GoVal

/-- `isEqual` from `signal.go`: nil handling first, then a dynamic type
check, then Go `==` for comparable types (pointer equality for pointers),
falling back to `reflect.DeepEqual`, i.e. recursive structural equality,
for non-comparable values. -/
def isEqual (a b : GoVal) : Bool :=
  if a.isNil && b.isNil then true
  else if a.isNil || b.isNil then false
  else if !(a.sameType b) then false
  else if a.comparable && b.comparable then a.beq b
  else a.beq b

/-! ## Scheduler (`scheduler.go`)

`Scheduler.Run` drives the flush loop: a compare-and-swap on `running`
guards re-entrance, `scheduled` is atomically swapped to `false` at each
iteration, the clock is bumped before each invocation of the body, and a
loop counter aborts the run with an "infinite update loop" error once it
exceeds 100000. The body is abstracted as a state transformer on a world
`W` together with the flag telling whether it called `Schedule()` (the
only way the body touches the scheduler's state). -/

/-- State of a `Scheduler` (`scheduler.go`) paired with the world the
body acts on. -/
structure SchedState (W : Type) where
  clock : Int
  scheduled : Bool
  running : Bool
  world : W
deriving Repr

/-- Result of `Scheduler.Run`: `nil` error or the infinite-loop error. -/
inductive SchedResult where
  | ok : SchedResult
  | infiniteLoop : SchedResult
deriving DecidableEq, Repr

namespace Scheduler

/-- The `for s.scheduled.Swap(false)` loop of `Scheduler.Run`.
`count` is the loop counter of the source; it is returned so that the
number of body invocations is observable. -/
def runLoop (body : W → W × Bool) (count : Nat) (s : SchedState W) :
    SchedState W × SchedResult × Nat :=
  if s.scheduled then
    if count + 1 > 100000 then
      ({ s with scheduled := false, running := false }, .infiniteLoop, count + 1)
    else
      runLoop body (count + 1)
        { clock := s.clock + 1, scheduled := (body s.world).2,
          running := s.running, world := (body s.world).1 }
  else
    ({ s with running := false }, .ok, count)
termination_by 100001 - count
decreasing_by omega

/-- `Scheduler.Run` from `scheduler.go`: compare-and-swap `running`
`false → true` (returning the `nil` error when the swap fails), run the
loop, and — via `defer` — store `running := false` on every exit path,
including the error return. -/
def run (body : W → W × Bool) (s : SchedState W) :
    SchedState W × SchedResult × Nat :=
  if s.running then (s, .ok, 0)
  else runLoop body 0 { s with running := true }

end Scheduler

/-! ## The runtime model

A single `Runtime` driven from one goroutine, translated from
`runtime.go`, `signal.go`, `computed.go`, `effect.go`, `batcher.go`,
`queue.go`, `tracker.go`, the heap (`heap.go`) and the flags
(`node.go`). Nodes live in one store indexed by creation order; a
`Computed` is a node whose `kind` is `memo` or `effect` (the source's
`Computed` embeds a `Signal`, so every node has the signal fields).

User compute thunks are embedded as data: the list `reads` of node ids
the thunk reads through `Signal.Read` (each read goes through
`Tracker.Track`, re-creating the dependency links), followed by a pure
function `fn` of the values read. An effect's thunk performs its reads
and returns `nil`. The ghost `trace` records, in order, the observable
calls: memo computes, effect body runs, pending-value commits and
`Flush` entries.

Owner trees: the scenarios verified here create all nodes outside any
owner scope and register no user cleanups, so of `Owner` only the
dispose handler installed by `NewComputed` (unlink from heap and
dependency lists when the node still has dependencies) is modelled;
`Owner.Dispose` itself is verified separately on `OwnerM` below. The
settled-callback queues are empty in every scenario and are omitted. -/

/-- The two effect lanes (`effect.go`). -/
inductive Lane where
  | render : Lane
  | user : Lane
deriving DecidableEq, Repr

/-- What a node is: a plain `Signal`, a `Computed` memo, or an `Effect`
(a `Computed` whose compute enqueues the body on a lane). -/
inductive NodeKind where
  | signal : NodeKind
  | memo : NodeKind
  | effect (lane : Lane) : NodeKind
deriving DecidableEq, Repr

/-- One reactive node: the `ReactiveNode` header (`node.go`) plus the
`Signal` payload (`signal.go`) plus the `Computed` payload
(`computed.go`). `fnIsEffectRun` tells whether `fn` has been replaced by
`Effect.run` (done by `NewEffect` right after construction). -/
structure Node where
  value : GoVal := .goNil
  pending : Option GoVal := none
  subs : List Nat := []
  deps : List Nat := []
  height : Nat := 0
  version : Int := 0
  inHeap : Bool := false
  disposed : Bool := false
  initialized : Bool := false
  kind : NodeKind := .signal
  fnIsEffectRun : Bool := false
  reads : List Nat := []
  fn : List GoVal → GoVal := fun _ => .goNil

/-- Ghost trace events. -/
inductive Event where
  | compute (id : Nat) (v : GoVal) : Event
  | effectRun (id : Nat) (vals : List GoVal) : Event
  | commit (id : Nat) (v : GoVal) : Event
  | flush : Event
deriving Repr

/-- The `Tracker` slots (`tracker.go`). -/
structure TrackerSt where
  tracking : Bool := true
  executingGID : Int := 1
  currentComputation : Option Nat := none
deriving DecidableEq, Repr

/-- The whole `Runtime` (`runtime.go`): node store, priority heap,
pending-signals queue, effect lanes, scheduler state, batcher depth and
tracker, plus the goroutine id of the caller and the ghost trace. -/
structure Rt where
  nodes : List Node := []
  buckets : List (List Nat) := []
  heapMax : Nat := 0
  nodeQueue : List Nat := []
  renderQ : List Nat := []
  userQ : List Nat := []
  clock : Int := 0
  scheduled : Bool := false
  running : Bool := false
  looped : Bool := false
  depth : Nat := 0
  tracker : TrackerSt := {}
  curGID : Int := 1
  trace : List Event := []

namespace Rt

/-- Fetch a node (ids are indices into the store). -/
def node (st : Rt) (i : Nat) : Node :=
  st.nodes.getD i {}

/-- Update a node in place. -/
def setNode (st : Rt) (i : Nat) (f : Node → Node) : Rt :=
  { st with nodes := st.nodes.set i (f (st.node i)) }

/-- `Signal.Value`: the pending value when one is staged, the committed
value otherwise (`valueUnsafe` in `signal.go`). -/
def effective (n : Node) : GoVal :=
  n.pending.getD n.value

/-- Write a heap bucket, growing the bucket array as needed (the source
preallocates 2000 buckets). -/
def setBucket (st : Rt) (h : Nat) (l : List Nat) : Rt :=
  if h < st.buckets.length then { st with buckets := st.buckets.set h l }
  else
    { st with
      buckets := st.buckets ++ List.replicate (h - st.buckets.length) [] ++ [l] }

/-- Read a heap bucket. -/
def bucket (st : Rt) (h : Nat) : List Nat :=
  st.buckets.getD h []

/-- `PriorityHeap.Insert` (`heap.go`): no-op when the `InHeap` flag is
set; otherwise flag the node, splice it at the tail of the bucket at its
height, and bump `max`. -/
def heapInsert (st : Rt) (nid : Nat) : Rt :=
  let n := st.node nid
  if n.inHeap then st
  else
    let st := st.setNode nid fun m => { m with inHeap := true }
    let st := st.setBucket n.height (st.bucket n.height ++ [nid])
    if n.height > st.heapMax then { st with heapMax := n.height } else st

/-- `PriorityHeap.InsertAll`. -/
def insertAll (st : Rt) (nids : List Nat) : Rt :=
  nids.foldl heapInsert st

/-- `PriorityHeap.Remove`: no-op when the flag is clear; otherwise clear
it and unlink the node from the bucket at its current height. -/
def heapRemove (st : Rt) (nid : Nat) : Rt :=
  let n := st.node nid
  if n.inHeap then
    let st := st.setNode nid fun m => { m with inHeap := false }
    st.setBucket n.height ((st.bucket n.height).erase nid)
  else st

/-- `Computed.Link` (`computed.go`): skip when the dependency is already
the most recent one; otherwise append the link to the subscriber's dep
list and the dependency's sub list, and raise the subscriber's height
when the dependency's height reaches it. -/
def link (st : Rt) (subId depId : Nat) : Rt :=
  let sub := st.node subId
  if sub.deps ≠ [] ∧ sub.deps.getLast? = some depId then st
  else
    let st := st.setNode subId fun m => { m with deps := m.deps ++ [depId] }
    let st := st.setNode depId fun m => { m with subs := m.subs ++ [subId] }
    if (st.node depId).height ≥ (st.node subId).height then
      st.setNode subId fun m => { m with height := (st.node depId).height + 1 }
    else st

/-- `Tracker.shouldTrack` (`tracker.go`): there is a current computation,
tracking is on, and the calling goroutine is the one recorded as
executing that computation. -/
def shouldTrack (st : Rt) : Bool :=
  st.tracker.currentComputation.isSome && st.tracker.tracking
    && (st.curGID == st.tracker.executingGID)

/-- `Tracker.Track`: link the signal to the current computation exactly
when `shouldTrack` holds. -/
def track (st : Rt) (sid : Nat) : Rt :=
  if st.shouldTrack then
    match st.tracker.currentComputation with
    | some comp => st.link comp sid
    | none => st
  else st

/-- `Signal.Read`: `Track` then `Value`. Returns the new state and the
value read. -/
def readSignal (st : Rt) (sid : Nat) : Rt × GoVal :=
  let st := st.track sid
  (st, effective (st.node sid))

/-- The reads a compute thunk performs, in order. -/
def readList (st : Rt) (sids : List Nat) : Rt × List GoVal :=
  match sids with
  | [] => (st, [])
  | sid :: rest =>
      let (st, v) := st.readSignal sid
      let (st, vs) := st.readList rest
      (st, v :: vs)

/-- `ReactiveNode.ClearDeps`: for each dependency link, remove it from
the dependency's subscriber list, then drop the dep list. -/
def clearDeps (st : Rt) (nid : Nat) : Rt :=
  let st := (st.node nid).deps.foldl
    (fun st dep => st.setNode dep fun m => { m with subs := m.subs.erase nid }) st
  st.setNode nid fun m => { m with deps := [] }

/-- The dispose handler `NewComputed` registers (`computed.go`): when the
node still has dependencies, remove it from the heap, clear its links
and reset all flags (`SetFlags(FlagNone)` clears `InHeap` and `Disposed`
alike). In the verified scenarios the computed owners have no children
and no user cleanups, so `Owner.Dispose` reduces to this handler. -/
def disposeComputed (st : Rt) (nid : Nat) : Rt :=
  if (st.node nid).deps ≠ [] then
    let st := st.heapRemove nid
    let st := st.clearDeps nid
    st.setNode nid fun m => { m with inHeap := false, disposed := false }
  else st

/-- `Computed.run` (`computed.go`): dispose the previous run's resources
when already initialized, mark initialized, run the user compute (its
reads go through `Signal.Read`, hence `Track`), and stage the result in
`pendingValue`. An effect's compute (the wrapper built by `NewEffect`)
runs the user body and returns `nil`. -/
def computedRun (st : Rt) (nid : Nat) : Rt :=
  let st := if (st.node nid).initialized then st.disposeComputed nid else st
  let st := st.setNode nid fun m => { m with initialized := true }
  let (st, vals) := st.readList (st.node nid).reads
  match (st.node nid).kind with
  | .effect _ =>
      let st := { st with trace := st.trace ++ [Event.effectRun nid vals] }
      st.setNode nid fun m => { m with pending := some .goNil }
  | _ =>
      let v := (st.node nid).fn vals
      let st := { st with trace := st.trace ++ [Event.compute nid v] }
      st.setNode nid fun m => { m with pending := some v }

/-- `Effect.run` (`effect.go`): push the body closure onto the effect's
lane, then call `Schedule(false)`. Every call site runs inside a flush
(`running = true`), so `Schedule` takes its early-return branch; the
other branch of the source would mark `scheduled` and flush, and is
modelled by the marking alone. -/
def effectEnqueue (st : Rt) (nid : Nat) : Rt :=
  let st :=
    match (st.node nid).kind with
    | NodeKind.effect Lane.render => { st with renderQ := st.renderQ ++ [nid] }
    | NodeKind.effect Lane.user => { st with userQ := st.userQ ++ [nid] }
    | _ => st
  if st.running then st else { st with scheduled := true }

/-- `Tracker.RunWithComputation` (`tracker.go`): save the current
computation, install `nid` and the executing goroutine id, run the body,
restore the computation (the goroutine id is not restored, as in the
source). -/
def runWithComputation (st : Rt) (nid : Nat) (body : Rt → Nat → Rt) : Rt :=
  let saved := st.tracker.currentComputation
  let st := { st with tracker :=
    { st.tracker with currentComputation := some nid, executingGID := st.curGID } }
  let st := body st nid
  { st with tracker := { st.tracker with currentComputation := saved } }

/-- `Runtime.recompute` (`runtime.go`): nothing to do for a plain signal
(`fn == nil`); otherwise remember the old value, dispose children (none
in the verified scenarios), clear the dependency links, stamp the
version, run the node's `fn` under the tracker, and when the effective
value changed insert all current subscribers into the dirty heap. A
memo's `fn` is `Computed.run`; an effect's is `Effect.run`. -/
def recompute (st : Rt) (nid : Nat) : Rt :=
  match (st.node nid).kind with
  | .signal => st
  | _ =>
      let old := Rt.effective (st.node nid)
      let st := st.clearDeps nid
      let st := st.setNode nid fun m => { m with version := st.clock }
      let st := st.runWithComputation nid fun st nid =>
        if (st.node nid).fnIsEffectRun then st.effectEnqueue nid
        else st.computedRun nid
      if isEqual old (Rt.effective (st.node nid)) then st
      else st.insertAll (st.node nid).subs

/-- The nested loops of `PriorityHeap.Drain` (`heap.go`): for `minv`
ascending while `minv ≤ max`, repeatedly pop the head of the bucket at
`minv`, unlink it, process it, and re-read the bucket. The source loop
has no structural bound (processing may insert), hence the fuel. -/
def drainAux (st : Rt) (fuel minv : Nat) : Rt :=
  match fuel with
  | 0 => st
  | fuel + 1 =>
      if minv ≤ st.heapMax then
        match st.bucket minv with
        | [] => drainAux st fuel (minv + 1)
        | nid :: _ => drainAux ((st.heapRemove nid).recompute nid) fuel minv
      else st

/-- `PriorityHeap.Drain`: run the loops, then reset `max` to 0. -/
def drain (st : Rt) (fuel : Nat) : Rt :=
  { st.drainAux fuel 0 with heapMax := 0 }

/-- `Signal.Commit` (`signal.go`): apply the pending value if any. -/
def commitSignal (st : Rt) (nid : Nat) : Rt :=
  match (st.node nid).pending with
  | some v =>
      let st := st.setNode nid fun m => { m with value := v, pending := none }
      { st with trace := st.trace ++ [Event.commit nid v] }
  | none => st

/-- `NodeQueue.Commit` (`queue.go`): commit every signal in the
pending-signals queue, then clear the queue. -/
def commitQueue (st : Rt) : Rt :=
  let st := st.nodeQueue.foldl commitSignal st
  { st with nodeQueue := [] }

/-- The queued closure an effect's `run` enqueues: skip when the node
was disposed, otherwise run `Computed.run` under the tracker. -/
def effectClosure (st : Rt) (nid : Nat) : Rt :=
  if (st.node nid).disposed then st
  else st.runWithComputation nid fun st nid => st.computedRun nid

/-- `EffectQueue.RunEffects` (`queue.go`): snapshot the lane, clear it,
run the snapshot in order. -/
def runEffects (st : Rt) (l : Lane) : Rt :=
  match l with
  | .render =>
      let q := st.renderQ
      let st := { st with renderQ := [] }
      q.foldl effectClosure st
  | .user =>
      let q := st.userQ
      let st := { st with userQ := [] }
      q.foldl effectClosure st

/-- The body `Runtime.Flush` hands to `scheduler.Run` (`runtime.go`):
drain the heap through `recompute`, commit the pending-signals queue,
release the mutex, run the render lane then the user lane, re-acquire.
(The settled queues are empty in every verified scenario.) -/
def flushBody (st : Rt) (fuel : Nat) : Rt :=
  let st := st.drain fuel
  let st := st.commitQueue
  let st := st.runEffects .render
  let st := st.runEffects .user
  st

/-- The `scheduler.Run` loop as `Runtime.Flush` invokes it, specialised
to the flush body: swap `scheduled` off, guard against 100000
iterations (`looped` records the infinite-loop error), advance the
clock, run the body. `sfuel` only makes the recursion structural: called
with `sfuel = 100001` (as `flush` does) the base case is unreachable,
because the counter guard fires first. -/
def flushLoop (fuel count : Nat) (st : Rt) (sfuel : Nat) : Rt :=
  match sfuel with
  | 0 => st
  | sfuel + 1 =>
      if st.scheduled then
        if count + 1 > 100000 then { st with scheduled := false, looped := true }
        else
          flushLoop fuel (count + 1)
            (flushBody { st with scheduled := false, clock := st.clock + 1 } fuel) sfuel
      else st

/-- `Runtime.Flush`: record the call in the trace, then `scheduler.Run`:
the compare-and-swap on `running` fails when a flush is already running;
otherwise run the loop and reset `running` on exit. -/
def flush (st : Rt) (fuel : Nat) : Rt :=
  let st := { st with trace := st.trace ++ [Event.flush] }
  if st.running then st
  else { flushLoop fuel 0 { st with running := true } 100001 with running := false }

/-- `Batcher.IsBatching` (`batcher.go`). -/
def isBatching (st : Rt) : Bool :=
  st.depth > 0

/-- `Runtime.Schedule` (`runtime.go`): early return when not forced and
the scheduler is running; otherwise mark scheduled and flush unless
batching or already running. -/
def schedule (st : Rt) (force : Bool) (fuel : Nat) : Rt :=
  if ¬ force ∧ st.running then st
  else
    let st := { st with scheduled := true }
    if ¬ st.isBatching ∧ ¬ st.running then st.flush fuel else st

/-- `Signal.Write` (`signal.go`): return with no side effects when the
new value equals the current effective value; otherwise stage the
pending value, stamp the version, insert all subscribers into the dirty
heap and `Schedule(force)`. -/
def writeSignal (st : Rt) (sid : Nat) (v : GoVal) (fuel : Nat) : Rt :=
  let n := st.node sid
  if isEqual (Rt.effective n) v then st
  else
    let st := st.setNode sid fun m => { m with pending := some v }
    let st := st.setNode sid fun m => { m with version := st.clock }
    let st := st.insertAll (st.node sid).subs
    st.schedule true fuel

/-- Append a fresh node to the store, returning its id. -/
def addNode (st : Rt) (n : Node) : Rt × Nat :=
  ({ st with nodes := st.nodes ++ [n] }, st.nodes.length)

/-- `Runtime.NewSignal`: a node holding the initial value. -/
def newSignal (st : Rt) (initial : GoVal) : Rt × Nat :=
  st.addNode { value := initial }

/-- `Runtime.NewComputed` (`computed.go`): allocate the node (owner plus
signal with `nil` value), set `fn = run`, register the dispose handler
(hardwired in `disposeComputed`), and `recompute` it before returning. -/
def newComputed (st : Rt) (reads : List Nat) (fn : List GoVal → GoVal) : Rt × Nat :=
  let (st, nid) := st.addNode { kind := .memo, reads := reads, fn := fn }
  (st.recompute nid, nid)

/-- `Runtime.NewEffect` (`effect.go`): a `Computed` whose compute wraps
the user body; construction recomputes it (running the body once,
synchronously), then `fn` is swapped to `Effect.run`. -/
def newEffect (st : Rt) (lane : Lane) (reads : List Nat) : Rt × Nat :=
  let (st, nid) := st.addNode { kind := .effect lane, reads := reads }
  let st := st.recompute nid
  (st.setNode nid fun m => { m with fnIsEffectRun := true }, nid)

end Rt

/-- Programs run against the runtime: writes and (nested) batches. -/
inductive Cmd where
  | write (sid : Nat) (v : GoVal) : Cmd
  | batch (cmds : List Cmd) : Cmd

mutual

/-- `Batcher.Batch(fn, onComplete)` with `onComplete = Runtime.Flush`
(`batcher.go`): bump the depth, run the body, drop the depth, and flush
when the depth is back to zero. A `write` command is `Signal.Write`. -/
def execCmd (st : Rt) (fuel : Nat) : Cmd → Rt
  | .write sid v => st.writeSignal sid v fuel
  | .batch cmds =>
      let st := { st with depth := st.depth + 1 }
      let st := execCmds st fuel cmds
      let st := { st with depth := st.depth - 1 }
      if st.depth = 0 then st.flush fuel else st

/-- Run a command list in order. -/
def execCmds (st : Rt) (fuel : Nat) : List Cmd → Rt
  | [] => st
  | c :: cs => execCmds (execCmd st fuel c) fuel cs

end

/-! ## The priority heap in isolation (`heap.go`)

For the drain-ordering claims the heap is studied with an arbitrary
`process` callback (the runtime passes `recompute`), so the heap of
`heap.go` is also embedded standalone: node heights and `InHeap` flags
(the only node state the heap touches) are carried in the heap record
itself. -/

/-- A `PriorityHeap` together with the height and `InHeap` flag of every
node: `buckets` holds, per height, the node ids in FIFO order; `flags`
is the set of ids whose `InHeap` flag is set; `heights.getD i 0` is the
height of node `i`. -/
structure HeapM where
  buckets : List (List Nat) := []
  maxH : Nat := 0
  flags : List Nat := []
  heights : List Nat := []
deriving Repr

namespace HeapM

/-- Height of a node. -/
def heightOf (h : HeapM) (i : Nat) : Nat :=
  h.heights.getD i 0

/-- Bucket at one height. -/
def bucketAt (h : HeapM) (j : Nat) : List Nat :=
  h.buckets.getD j []

/-- Write one bucket, growing the array as needed (preallocated in the
source). -/
def setBucket (h : HeapM) (j : Nat) (l : List Nat) : HeapM :=
  if j < h.buckets.length then { h with buckets := h.buckets.set j l }
  else { h with buckets := h.buckets ++ List.replicate (j - h.buckets.length) [] ++ [l] }

/-- `PriorityHeap.Insert`: no-op when flagged; otherwise flag, splice at
the tail of the bucket at the node's height, bump `max`. -/
def insert (h : HeapM) (nid : Nat) : HeapM :=
  if nid ∈ h.flags then h
  else
    let h := { h with flags := nid :: h.flags }
    let h := h.setBucket (h.heightOf nid) (h.bucketAt (h.heightOf nid) ++ [nid])
    if h.heightOf nid > h.maxH then { h with maxH := h.heightOf nid } else h

/-- `PriorityHeap.Remove`: no-op when not flagged; otherwise unflag and
unlink from the bucket at the node's current height. -/
def remove (h : HeapM) (nid : Nat) : HeapM :=
  if nid ∈ h.flags then
    let h := { h with flags := h.flags.erase nid }
    h.setBucket (h.heightOf nid) ((h.bucketAt (h.heightOf nid)).erase nid)
  else h

/-- The nested loops of `PriorityHeap.Drain`: ascend `minv` while
`minv ≤ max`, popping and processing the head of the current bucket,
re-reading the bucket after each `process` call. Also returns the
processed ids in order. The source loop is unbounded (processing may
insert), hence the fuel. -/
def drainAux (process : HeapM → Nat → HeapM) : Nat → Nat → HeapM → HeapM × List Nat
  | 0, _, h => (h, [])
  | fuel + 1, minv, h =>
      if minv ≤ h.maxH then
        match h.bucketAt minv with
        | [] => drainAux process fuel (minv + 1) h
        | nid :: _ =>
            let h1 := process (h.remove nid) nid
            let (h2, rest) := drainAux process fuel minv h1
            (h2, nid :: rest)
      else (h, [])

/-- `PriorityHeap.Drain`: run the loops from height 0, then reset `max`
to 0. -/
def drain (process : HeapM → Nat → HeapM) (fuel : Nat) (h : HeapM) : HeapM × List Nat :=
  let r := drainAux process fuel 0 h
  ({ r.1 with maxH := 0 }, r.2)

/-- How many entries the heap holds. -/
def count (h : HeapM) : Nat :=
  (h.buckets.map List.length).sum

/-- A `process` callback that does not touch the heap. -/
def passive : HeapM → Nat → HeapM :=
  fun g _ => g

/-- The heap after the drain popped `nid` off the bucket at `minv`
whose tail was `rest` (what `Remove` leaves in that situation). -/
def pop (h : HeapM) (nid minv : Nat) (rest : List Nat) : HeapM :=
  { h with flags := h.flags.erase nid, buckets := h.buckets.set minv rest }

/-- A heap is well formed when buckets beyond `max` are empty, every
queued node sits in the bucket of its height, every queued node has its
`InHeap` flag set, and no bucket repeats a node. -/
def WF (h : HeapM) : Prop :=
  (∀ j, h.maxH < j → h.bucketAt j = []) ∧
  (∀ j, ∀ n ∈ h.bucketAt j, h.heightOf n = j) ∧
  (∀ j, ∀ n ∈ h.bucketAt j, n ∈ h.flags) ∧
  (∀ j, (h.bucketAt j).Nodup)

end HeapM

/-! ## The owner tree in isolation (`owner.go`) -/

/-- An `Owner` (`owner.go`): `children` in `childrenHead` traversal
order (most recently added first, since `AddChild` prepends), `cleanups`
and `disposeListeners` in insertion order. The callbacks are labelled by
numbers; the error listeners and the context bag play no part in the
disposal claims. -/
inductive OwnerM where
  | mk (children : List OwnerM) (cleanups : List Nat) (disposeListeners : List Nat)

/-- Events a disposal emits, in order. -/
inductive OEvent where
  | cleanup (label : Nat) : OEvent
  | listener (label : Nat) : OEvent
deriving DecidableEq, Repr

namespace OwnerM

/-- The children in traversal order. -/
def children : OwnerM → List OwnerM
  | .mk c _ _ => c

/-- The cleanups in insertion order. -/
def cleanups : OwnerM → List Nat
  | .mk _ c _ => c

/-- The dispose listeners in insertion order. -/
def disposeListeners : OwnerM → List Nat
  | .mk _ _ d => d

/-- `Owner.AddChild`: the child is pushed at `childrenHead`, i.e.
prepended to the traversal order. -/
def addChild (parent child : OwnerM) : OwnerM :=
  .mk (child :: parent.children) parent.cleanups parent.disposeListeners

mutual

/-- `Owner.Dispose` (`owner.go`): `DisposeChildren` (each child in
traversal order, then the child list is cleared), then the cleanups in
insertion order (cleared afterwards — one-shots), then the dispose
listeners in insertion order (kept). Returns the owner afterwards and
the emitted events in order. -/
def dispose : OwnerM → OwnerM × List OEvent
  | .mk children cleanups listeners =>
      (.mk [] [] listeners,
        disposeChildren children ++ cleanups.map OEvent.cleanup
          ++ listeners.map OEvent.listener)

/-- The loop of `Owner.DisposeChildren`: dispose each child in traversal
order, collecting the events. -/
def disposeChildren : List OwnerM → List OEvent
  | [] => []
  | c :: cs => (dispose c).2 ++ disposeChildren cs

end

end OwnerM

/-! ## Trace observations and concrete scenarios -/

/-- Whether an event is a compute of the given memo. -/
def Event.isComputeOf (id : Nat) : Event → Bool
  | .compute i _ => i == id
  | _ => false

/-- Whether an event is a body run of the given effect. -/
def Event.isRunOf (id : Nat) : Event → Bool
  | .effectRun i _ => i == id
  | _ => false

/-- Whether an event is a `Flush` entry. -/
def Event.isFlush : Event → Bool
  | .flush => true
  | _ => false

/-- How many times the trace computes the given memo. -/
def computeCount (tr : List Event) (id : Nat) : Nat :=
  tr.countP (Event.isComputeOf id)

/-- How many times the trace runs the given effect's body. -/
def runCount (tr : List Event) (id : Nat) : Nat :=
  tr.countP (Event.isRunOf id)

/-- How many `Flush` entries the trace holds. -/
def flushCount (tr : List Event) : Nat :=
  tr.countP Event.isFlush

/-- `fun n => 2*n` lifted to a compute of one read value. -/
def doubleF : List GoVal → GoVal
  | [.int n] => .int (2 * n)
  | _ => .goNil

/-- `fun n => 4*n` lifted to a compute of one read value. -/
def quadF : List GoVal → GoVal
  | [.int n] => .int (4 * n)
  | _ => .goNil

/-- Addition of the two read values. -/
def sumF : List GoVal → GoVal
  | [.int a, .int b] => .int (a + b)
  | _ => .goNil

/-- An arbitrary unary integer compute. -/
def liftF (f : Int → Int) : List GoVal → GoVal
  | [.int n] => .int (f n)
  | _ => .goNil

/-- C1 scenario: one signal `0` with value `int 0` and no subscribers. -/
def stC1 : Rt :=
  (Rt.newSignal {} (.int 0)).1

/-- C1 scenario after `Write(1)`: the write stages the pending value and
triggers a full flush. -/
def stC1w : Rt :=
  stC1.writeSignal 0 (.int 1) 4

/-- C2 scenario: a signal holding committed `int 0` and pending `int 1`
(produced by a write, whose flush — as C1 shows — does not commit),
read with no computation running. -/
def stC2 : Rt :=
  (Rt.newSignal {} (.int 0)).1.writeSignal 0 (.int 1) 4

/-- C3/C5/C10 style diamond: signal `a = 0`, memos `b = 2a` (id 1) and
`c = 4a` (id 2), memo `d = b + c` (id 3), user effect `e` reading `d`
(id 4). -/
def diamond : Rt :=
  let st : Rt := {}
  let st := (st.newSignal (.int 0)).1
  let st := (st.newComputed [0] doubleF).1
  let st := (st.newComputed [0] quadF).1
  let st := (st.newComputed [1, 2] sumF).1
  ((st.newEffect .user [3]).1)

/-- The diamond with constant memos: `b = 5`, `c = 7`, `d = b + c`. -/
def diamondConst : Rt :=
  let st : Rt := {}
  let st := (st.newSignal (.int 0)).1
  let st := (st.newComputed [0] (fun _ => .int 5)).1
  let st := (st.newComputed [0] (fun _ => .int 7)).1
  let st := (st.newComputed [1, 2] sumF).1
  ((st.newEffect .user [3]).1)

/-- C7 scenario: signal `s = 0` (id 0), memo `m = f s` (id 1), user
effect `e` reading `m` (id 2). -/
def chain (f : Int → Int) : Rt :=
  let st : Rt := {}
  let st := (st.newSignal (.int 0)).1
  let st := (st.newComputed [0] (liftF f)).1
  ((st.newEffect .user [1]).1)

/-- C9 scenario: one signal holding a slice value. -/
def stC9 : Rt :=
  (Rt.newSignal {} (.slice [.int 1, .str "a"])).1

/-- The creation-time state of `diamond`, written out. -/
def diamondLit : Rt :=
  { nodes := [
      { value := .int 0, subs := [1, 2] },
      { value := .goNil, pending := some (.int 0), subs := [3], deps := [0], height := 1,
        initialized := true, kind := .memo, reads := [0], fn := doubleF },
      { value := .goNil, pending := some (.int 0), subs := [3], deps := [0], height := 1,
        initialized := true, kind := .memo, reads := [0], fn := quadF },
      { value := .goNil, pending := some (.int 0), subs := [4], deps := [1, 2], height := 2,
        initialized := true, kind := .memo, reads := [1, 2], fn := sumF },
      { value := .goNil, pending := some (.goNil), deps := [3], height := 3,
        initialized := true, kind := .effect .user, fnIsEffectRun := true, reads := [3] } ],
    trace := [.compute 1 (.int 0), .compute 2 (.int 0), .compute 3 (.int 0),
      .effectRun 4 [.int 0]] }

/-- `diamond` right after `Write(a, x)` staged the pending value and
inserted `b` and `c` into the heap, as `Schedule(true)` hands it to
`Flush`. -/
def dW1 (x : Int) : Rt :=
  { nodes := [
      { value := .int 0, pending := some (.int x), subs := [1, 2] },
      { value := .goNil, pending := some (.int 0), subs := [3], deps := [0], height := 1,
        inHeap := true, initialized := true, kind := .memo, reads := [0], fn := doubleF },
      { value := .goNil, pending := some (.int 0), subs := [3], deps := [0], height := 1,
        inHeap := true, initialized := true, kind := .memo, reads := [0], fn := quadF },
      { value := .goNil, pending := some (.int 0), subs := [4], deps := [1, 2], height := 2,
        initialized := true, kind := .memo, reads := [1, 2], fn := sumF },
      { value := .goNil, pending := some (.goNil), deps := [3], height := 3,
        initialized := true, kind := .effect .user, fnIsEffectRun := true, reads := [3] } ],
    buckets := [[], [1, 2]], heapMax := 1, scheduled := true,
    trace := [.compute 1 (.int 0), .compute 2 (.int 0), .compute 3 (.int 0),
      .effectRun 4 [.int 0]] }

/-- `dW1` as `Flush` hands it to the scheduler loop: the `Flush` entry
traced and `running` compare-and-swapped on. -/
def dW2 (x : Int) : Rt :=
  { nodes := [
      { value := .int 0, pending := some (.int x), subs := [1, 2] },
      { value := .goNil, pending := some (.int 0), subs := [3], deps := [0], height := 1,
        inHeap := true, initialized := true, kind := .memo, reads := [0], fn := doubleF },
      { value := .goNil, pending := some (.int 0), subs := [3], deps := [0], height := 1,
        inHeap := true, initialized := true, kind := .memo, reads := [0], fn := quadF },
      { value := .goNil, pending := some (.int 0), subs := [4], deps := [1, 2], height := 2,
        initialized := true, kind := .memo, reads := [1, 2], fn := sumF },
      { value := .goNil, pending := some (.goNil), deps := [3], height := 3,
        initialized := true, kind := .effect .user, fnIsEffectRun := true, reads := [3] } ],
    buckets := [[], [1, 2]], heapMax := 1, scheduled := true, running := true,
    trace := [.compute 1 (.int 0), .compute 2 (.int 0), .compute 3 (.int 0),
      .effectRun 4 [.int 0], .flush] }

/-- The state entering the flush body: `scheduled` swapped off, clock
advanced, `running` on, the `Flush` entry traced. -/
def dT0 (x : Int) : Rt :=
  { nodes := [
      { value := .int 0, pending := some (.int x), subs := [1, 2] },
      { value := .goNil, pending := some (.int 0), subs := [3], deps := [0], height := 1,
        inHeap := true, initialized := true, kind := .memo, reads := [0], fn := doubleF },
      { value := .goNil, pending := some (.int 0), subs := [3], deps := [0], height := 1,
        inHeap := true, initialized := true, kind := .memo, reads := [0], fn := quadF },
      { value := .goNil, pending := some (.int 0), subs := [4], deps := [1, 2], height := 2,
        initialized := true, kind := .memo, reads := [1, 2], fn := sumF },
      { value := .goNil, pending := some (.goNil), deps := [3], height := 3,
        initialized := true, kind := .effect .user, fnIsEffectRun := true, reads := [3] } ],
    buckets := [[], [1, 2]], heapMax := 1, clock := 1, running := true,
    trace := [.compute 1 (.int 0), .compute 2 (.int 0), .compute 3 (.int 0),
      .effectRun 4 [.int 0], .flush] }

/-- After the drain processed `b` (id 1). -/
def dT1 (x : Int) : Rt :=
  { nodes := [
      { value := .int 0, pending := some (.int x), subs := [2, 1] },
      { value := .goNil, pending := some (.int (2 * x)), subs := [3], deps := [0], height := 1,
        version := 1, initialized := true, kind := .memo, reads := [0], fn := doubleF },
      { value := .goNil, pending := some (.int 0), subs := [3], deps := [0], height := 1,
        inHeap := true, initialized := true, kind := .memo, reads := [0], fn := quadF },
      { value := .goNil, pending := some (.int 0), subs := [4], deps := [1, 2], height := 2,
        inHeap := true, initialized := true, kind := .memo, reads := [1, 2], fn := sumF },
      { value := .goNil, pending := some (.goNil), deps := [3], height := 3,
        initialized := true, kind := .effect .user, fnIsEffectRun := true, reads := [3] } ],
    buckets := [[], [2], [3]], heapMax := 2, clock := 1, running := true,
    trace := [.compute 1 (.int 0), .compute 2 (.int 0), .compute 3 (.int 0),
      .effectRun 4 [.int 0], .flush, .compute 1 (.int (2 * x))] }

/-- After the drain processed `c` (id 2). -/
def dT2 (x : Int) : Rt :=
  { nodes := [
      { value := .int 0, pending := some (.int x), subs := [1, 2] },
      { value := .goNil, pending := some (.int (2 * x)), subs := [3], deps := [0], height := 1,
        version := 1, initialized := true, kind := .memo, reads := [0], fn := doubleF },
      { value := .goNil, pending := some (.int (4 * x)), subs := [3], deps := [0], height := 1,
        version := 1, initialized := true, kind := .memo, reads := [0], fn := quadF },
      { value := .goNil, pending := some (.int 0), subs := [4], deps := [1, 2], height := 2,
        inHeap := true, initialized := true, kind := .memo, reads := [1, 2], fn := sumF },
      { value := .goNil, pending := some (.goNil), deps := [3], height := 3,
        initialized := true, kind := .effect .user, fnIsEffectRun := true, reads := [3] } ],
    buckets := [[], [], [3]], heapMax := 2, clock := 1, running := true,
    trace := [.compute 1 (.int 0), .compute 2 (.int 0), .compute 3 (.int 0),
      .effectRun 4 [.int 0], .flush, .compute 1 (.int (2 * x)),
      .compute 2 (.int (4 * x))] }

/-- After the drain processed `d` (id 3), which enqueued the effect
into the heap. -/
def dT3 (x : Int) : Rt :=
  { nodes := [
      { value := .int 0, pending := some (.int x), subs := [1, 2] },
      { value := .goNil, pending := some (.int (2 * x)), subs := [3], deps := [0], height := 1,
        version := 1, initialized := true, kind := .memo, reads := [0], fn := doubleF },
      { value := .goNil, pending := some (.int (4 * x)), subs := [3], deps := [0], height := 1,
        version := 1, initialized := true, kind := .memo, reads := [0], fn := quadF },
      { value := .goNil, pending := some (.int (2 * x + 4 * x)), subs := [4], deps := [1, 2],
        height := 2, version := 1, initialized := true, kind := .memo, reads := [1, 2],
        fn := sumF },
      { value := .goNil, pending := some (.goNil), deps := [3], height := 3, inHeap := true,
        initialized := true, kind := .effect .user, fnIsEffectRun := true, reads := [3] } ],
    buckets := [[], [], [], [4]], heapMax := 3, clock := 1, running := true,
    trace := [.compute 1 (.int 0), .compute 2 (.int 0), .compute 3 (.int 0),
      .effectRun 4 [.int 0], .flush, .compute 1 (.int (2 * x)),
      .compute 2 (.int (4 * x)), .compute 3 (.int (2 * x + 4 * x))] }

/-- After the drain processed the effect (id 4): its body landed on the
user lane, nothing further recomputed. -/
def dT4 (x : Int) : Rt :=
  { nodes := [
      { value := .int 0, pending := some (.int x), subs := [1, 2] },
      { value := .goNil, pending := some (.int (2 * x)), subs := [3], deps := [0], height := 1,
        version := 1, initialized := true, kind := .memo, reads := [0], fn := doubleF },
      { value := .goNil, pending := some (.int (4 * x)), subs := [3], deps := [0], height := 1,
        version := 1, initialized := true, kind := .memo, reads := [0], fn := quadF },
      { value := .goNil, pending := some (.int (2 * x + 4 * x)), subs := [], deps := [1, 2],
        height := 2, version := 1, initialized := true, kind := .memo, reads := [1, 2],
        fn := sumF },
      { value := .goNil, pending := some (.goNil), deps := [], height := 3,
        version := 1, initialized := true, kind := .effect .user, fnIsEffectRun := true,
        reads := [3] } ],
    buckets := [[], [], [], []], heapMax := 3, userQ := [4], clock := 1, running := true,
    trace := [.compute 1 (.int 0), .compute 2 (.int 0), .compute 3 (.int 0),
      .effectRun 4 [.int 0], .flush, .compute 1 (.int (2 * x)),
      .compute 2 (.int (4 * x)), .compute 3 (.int (2 * x + 4 * x))] }

/-- After the user lane ran the effect body: it re-linked to `d` and
observed `d`'s new value. -/
def dT5 (x : Int) : Rt :=
  { nodes := [
      { value := .int 0, pending := some (.int x), subs := [1, 2] },
      { value := .goNil, pending := some (.int (2 * x)), subs := [3], deps := [0], height := 1,
        version := 1, initialized := true, kind := .memo, reads := [0], fn := doubleF },
      { value := .goNil, pending := some (.int (4 * x)), subs := [3], deps := [0], height := 1,
        version := 1, initialized := true, kind := .memo, reads := [0], fn := quadF },
      { value := .goNil, pending := some (.int (2 * x + 4 * x)), subs := [4], deps := [1, 2],
        height := 2, version := 1, initialized := true, kind := .memo, reads := [1, 2],
        fn := sumF },
      { value := .goNil, pending := some (.goNil), deps := [3], height := 3,
        version := 1, initialized := true, kind := .effect .user, fnIsEffectRun := true,
        reads := [3] } ],
    buckets := [[], [], [], []], clock := 1, running := true,
    trace := [.compute 1 (.int 0), .compute 2 (.int 0), .compute 3 (.int 0),
      .effectRun 4 [.int 0], .flush, .compute 1 (.int (2 * x)),
      .compute 2 (.int (4 * x)), .compute 3 (.int (2 * x + 4 * x)),
      .effectRun 4 [.int (2 * x + 4 * x)]] }

/-- A batch body writing the listed values to signal `0` in order. -/
def wCmds (ws : List Int) : List Cmd :=
  ws.map fun v => Cmd.write 0 (.int v)

/-- The values the last body run of the given effect observed, if the
trace holds any run of it. -/
def lastRun (tr : List Event) (id : Nat) : Option (List GoVal) :=
  (tr.filterMap fun e =>
    match e with
    | Event.effectRun i vs => if i == id then some vs else none
    | _ => none).getLast?

/-- The state of `chain` mid-creation: the signal and the memo exist,
the effect does not yet. -/
def chainA (f : Int → Int) : Rt :=
  { nodes := [
      { value := .int 0, subs := [1] },
      { value := .goNil, pending := some (.int (f 0)), deps := [0], height := 1,
        initialized := true, kind := .memo, reads := [0], fn := liftF f } ],
    trace := [.compute 1 (.int (f 0))] }

/-- The creation-time state of `chain`, written out. -/
def chainLit (f : Int → Int) : Rt :=
  { nodes := [
      { value := .int 0, subs := [1] },
      { value := .goNil, pending := some (.int (f 0)), subs := [2], deps := [0], height := 1,
        initialized := true, kind := .memo, reads := [0], fn := liftF f },
      { value := .goNil, pending := some (.goNil), deps := [1], height := 2,
        initialized := true, kind := .effect .user, fnIsEffectRun := true, reads := [1] } ],
    trace := [.compute 1 (.int (f 0)), .effectRun 2 [.int (f 0)]] }

/-- `chainLit` inside a batch before any effective write. -/
def chainS0 (f : Int → Int) : Rt :=
  { chainLit f with depth := 1 }

/-- `chainLit` inside a batch after at least one effective write, the
last staged value being `cur`: the signal's pending value is stashed,
the memo sits in the dirty heap, a flush is scheduled — but none has
run, and the trace is the creation trace. -/
def chainS1 (f : Int → Int) (cur : Int) : Rt :=
  { nodes := [
      { value := .int 0, pending := some (.int cur), subs := [1] },
      { value := .goNil, pending := some (.int (f 0)), subs := [2], deps := [0], height := 1,
        inHeap := true, initialized := true, kind := .memo, reads := [0], fn := liftF f },
      { value := .goNil, pending := some (.goNil), deps := [1], height := 2,
        initialized := true, kind := .effect .user, fnIsEffectRun := true, reads := [1] } ],
    buckets := [[], [1]], heapMax := 1, scheduled := true, depth := 1,
    trace := [.compute 1 (.int (f 0)), .effectRun 2 [.int (f 0)]] }

/-- `chainS1` (depth dropped back to `0`) as `Flush` hands it to the
scheduler loop: the `Flush` entry traced and `running` swapped on. -/
def cW (f : Int → Int) (cur : Int) : Rt :=
  { nodes := [
      { value := .int 0, pending := some (.int cur), subs := [1] },
      { value := .goNil, pending := some (.int (f 0)), subs := [2], deps := [0], height := 1,
        inHeap := true, initialized := true, kind := .memo, reads := [0], fn := liftF f },
      { value := .goNil, pending := some (.goNil), deps := [1], height := 2,
        initialized := true, kind := .effect .user, fnIsEffectRun := true, reads := [1] } ],
    buckets := [[], [1]], heapMax := 1, scheduled := true, running := true,
    trace := [.compute 1 (.int (f 0)), .effectRun 2 [.int (f 0)], .flush] }

/-- `cW` entering the flush body: `scheduled` swapped off, clock
advanced. -/
def cT0 (f : Int → Int) (cur : Int) : Rt :=
  { nodes := [
      { value := .int 0, pending := some (.int cur), subs := [1] },
      { value := .goNil, pending := some (.int (f 0)), subs := [2], deps := [0], height := 1,
        inHeap := true, initialized := true, kind := .memo, reads := [0], fn := liftF f },
      { value := .goNil, pending := some (.goNil), deps := [1], height := 2,
        initialized := true, kind := .effect .user, fnIsEffectRun := true, reads := [1] } ],
    buckets := [[], [1]], heapMax := 1, clock := 1, running := true,
    trace := [.compute 1 (.int (f 0)), .effectRun 2 [.int (f 0)], .flush] }

/-- After the drain recomputed the memo and its value changed
(`f cur ≠ f 0`): the effect entered the heap at height 2. -/
def cT1 (f : Int → Int) (cur : Int) : Rt :=
  { nodes := [
      { value := .int 0, pending := some (.int cur), subs := [1] },
      { value := .goNil, pending := some (.int (f cur)), subs := [2], deps := [0], height := 1,
        version := 1, initialized := true, kind := .memo, reads := [0], fn := liftF f },
      { value := .goNil, pending := some (.goNil), deps := [1], height := 2, inHeap := true,
        initialized := true, kind := .effect .user, fnIsEffectRun := true, reads := [1] } ],
    buckets := [[], [], [2]], heapMax := 2, clock := 1, running := true,
    trace := [.compute 1 (.int (f 0)), .effectRun 2 [.int (f 0)], .flush,
      .compute 1 (.int (f cur))] }

/-- After the drain also processed the effect: its body closure is
queued on the user lane. -/
def cT2 (f : Int → Int) (cur : Int) : Rt :=
  { nodes := [
      { value := .int 0, pending := some (.int cur), subs := [1] },
      { value := .goNil, pending := some (.int (f cur)), subs := [], deps := [0], height := 1,
        version := 1, initialized := true, kind := .memo, reads := [0], fn := liftF f },
      { value := .goNil, pending := some (.goNil), deps := [], height := 2, version := 1,
        initialized := true, kind := .effect .user, fnIsEffectRun := true, reads := [1] } ],
    buckets := [[], [], []], heapMax := 2, userQ := [2], clock := 1, running := true,
    trace := [.compute 1 (.int (f 0)), .effectRun 2 [.int (f 0)], .flush,
      .compute 1 (.int (f cur))] }

/-- After the user lane ran the effect body: it re-linked to the memo
and observed the memo's new value. -/
def cT3 (f : Int → Int) (cur : Int) : Rt :=
  { nodes := [
      { value := .int 0, pending := some (.int cur), subs := [1] },
      { value := .goNil, pending := some (.int (f cur)), subs := [2], deps := [0], height := 1,
        version := 1, initialized := true, kind := .memo, reads := [0], fn := liftF f },
      { value := .goNil, pending := some (.goNil), deps := [1], height := 2, version := 1,
        initialized := true, kind := .effect .user, fnIsEffectRun := true, reads := [1] } ],
    buckets := [[], [], []], heapMax := 0, clock := 1, running := true,
    trace := [.compute 1 (.int (f 0)), .effectRun 2 [.int (f 0)], .flush,
      .compute 1 (.int (f cur)), .effectRun 2 [.int (f cur)]] }

/-- After the drain recomputed the memo and its value did NOT change
(`f cur = f 0`): no subscriber entered the heap and the drain stopped. -/
def cU1 (f : Int → Int) (cur : Int) : Rt :=
  { nodes := [
      { value := .int 0, pending := some (.int cur), subs := [1] },
      { value := .goNil, pending := some (.int (f cur)), subs := [2], deps := [0], height := 1,
        version := 1, initialized := true, kind := .memo, reads := [0], fn := liftF f },
      { value := .goNil, pending := some (.goNil), deps := [1], height := 2,
        initialized := true, kind := .effect .user, fnIsEffectRun := true, reads := [1] } ],
    buckets := [[], []], heapMax := 1, clock := 1, running := true,
    trace := [.compute 1 (.int (f 0)), .effectRun 2 [.int (f 0)], .flush,
      .compute 1 (.int (f cur))] }

/-- `cU1` after the flush body finished (`Drain` reset `max`; the lanes
were empty, so the effect did not run). -/
def cU2 (f : Int → Int) (cur : Int) : Rt :=
  { nodes := [
      { value := .int 0, pending := some (.int cur), subs := [1] },
      { value := .goNil, pending := some (.int (f cur)), subs := [2], deps := [0], height := 1,
        version := 1, initialized := true, kind := .memo, reads := [0], fn := liftF f },
      { value := .goNil, pending := some (.goNil), deps := [1], height := 2,
        initialized := true, kind := .effect .user, fnIsEffectRun := true, reads := [1] } ],
    buckets := [[], []], heapMax := 0, clock := 1, running := true,
    trace := [.compute 1 (.int (f 0)), .effectRun 2 [.int (f 0)], .flush,
      .compute 1 (.int (f cur))] }

/-- C5 counterexample state: a memo (id 1) mid-recompute whose most
recent dependency is already the signal (id 0); tracking is on, the
current computation is the memo, and the caller is on the recorded
goroutine. -/
def stC5 : Rt :=
  { nodes := [{}, { kind := .memo, deps := [0], height := 1 }],
    tracker := { tracking := true, executingGID := 1, currentComputation := some 1 },
    curGID := 1 }

/-- C5 witness state: like `stC5` but the memo has no dependency yet. -/
def stC5b : Rt :=
  { nodes := [{}, { kind := .memo }],
    tracker := { tracking := true, executingGID := 1, currentComputation := some 1 },
    curGID := 1 }

/-- A `process` callback that, while handling node `1`, inserts node `2`
into the heap (at whatever height the heap records for `2`). -/
def processIns : HeapM → Nat → HeapM :=
  fun g nid => if nid == 1 then g.insert 2 else g

/-- C6 heap: node `1` queued at height 1; node `2` (not yet queued) has
height 1 as well — the height the drain is currently working at when
`1` is processed. -/
def h6same : HeapM :=
  { buckets := [[], [1]], maxH := 1, flags := [1], heights := [0, 1, 1] }

/-- C6 counterexample heap: like `h6same` but node `2` has height 0,
below the drain's current minimum when `1` is processed. -/
def h6low : HeapM :=
  { buckets := [[], [1]], maxH := 1, flags := [1], heights := [0, 1, 0] }

/-- C6 witness heap: one entry, node `5` at height 0. -/
def h6pass : HeapM :=
  { buckets := [[5]], maxH := 0, flags := [5], heights := [] }

/-- C8 counterexample: child added first, carrying cleanup 1. -/
def ownA : OwnerM := .mk [] [1] []

/-- C8 counterexample: child added second, carrying cleanup 2. -/
def ownB : OwnerM := .mk [] [2] []

/-- C8 counterexample: a parent with cleanup 10 and dispose listener 20,
to which `ownA` then `ownB` are added through `AddChild`. -/
def ownParent : OwnerM :=
  OwnerM.addChild (OwnerM.addChild (.mk [] [10] [20]) ownA) ownB

/-- States related by the bookkeeping steps of a recompute: the trace,
the store size, the clock, and — for every node — all fields other than
the dependency links, the heap flag and the height agree. Dependency
linking, tracking and heap insertion only move within this relation. -/
def Rt.FrameEq (st st' : Rt) : Prop :=
  st'.trace = st.trace ∧ st'.nodes.length = st.nodes.length ∧ st'.clock = st.clock ∧
  ∀ j, (st'.node j).pending = (st.node j).pending ∧
    (st'.node j).value = (st.node j).value ∧
    (st'.node j).kind = (st.node j).kind ∧
    (st'.node j).fnIsEffectRun = (st.node j).fnIsEffectRun ∧
    (st'.node j).reads = (st.node j).reads ∧
    (st'.node j).fn = (st.node j).fn

/-! ## Theorems -/

mutual

theorem GoVal.beq_iff_eq : ∀ a b : GoVal, GoVal.beq a b = true ↔ a = b
  | .goNil, .goNil => by simp [GoVal.beq]
  | .int a, .int b => by simp [GoVal.beq]
  | .str a, .str b => by simp [GoVal.beq]
  | .ptr a, .ptr b => by simp [GoVal.beq]
  | .slice a, .slice b => by
      simp only [GoVal.beq, GoVal.slice.injEq]
      exact GoVal.beqList_iff_eq a b
  | .goNil, .int _ | .goNil, .str _ | .goNil, .ptr _ | .goNil, .slice _
  | .int _, .goNil | .int _, .str _ | .int _, .ptr _ | .int _, .slice _
  | .str _, .goNil | .str _, .int _ | .str _, .ptr _ | .str _, .slice _
  | .ptr _, .goNil | .ptr _, .int _ | .ptr _, .str _ | .ptr _, .slice _
  | .slice _, .goNil | .slice _, .int _ | .slice _, .str _ | .slice _, .ptr _ => by
      simp [GoVal.beq]

theorem GoVal.beqList_iff_eq : ∀ a b : List GoVal, GoVal.beqList a b = true ↔ a = b
  | [], [] => by simp [GoVal.beqList]
  | a :: as, b :: bs => by
      simp only [GoVal.beqList, Bool.and_eq_true, List.cons.injEq]
      exact and_congr (GoVal.beq_iff_eq a b) (GoVal.beqList_iff_eq as bs)
  | [], _ :: _ => by simp [GoVal.beqList]
  | _ :: _, [] => by simp [GoVal.beqList]

end

theorem scheduler_runLoop_spec {W : Type} (body : W → W × Bool) :
    ∀ (k count : Nat) (s : SchedState W), 100001 ≤ k + count → count ≤ 100000 →
    (Scheduler.runLoop body count s).1.running = false ∧
    count ≤ (Scheduler.runLoop body count s).2.2 ∧
    ((Scheduler.runLoop body count s).2.1 = .ok →
       (Scheduler.runLoop body count s).2.2 ≤ 100000 ∧
       (Scheduler.runLoop body count s).1.clock
         = s.clock + (((Scheduler.runLoop body count s).2.2 - count : Nat) : Int)) ∧
    ((Scheduler.runLoop body count s).2.1 = .infiniteLoop →
       (Scheduler.runLoop body count s).2.2 = 100001 ∧
       (Scheduler.runLoop body count s).1.clock
         = s.clock + ((100000 - count : Nat) : Int)) := by
  intro k
  induction k with
  | zero => intro count s hk hc; omega
  | succ k ih =>
      intro count s hk hc
      rw [Scheduler.runLoop]
      by_cases hsch : s.scheduled = true
      · rw [if_pos hsch]
        by_cases hcnt : count + 1 > 100000
        · rw [if_pos hcnt]
          refine ⟨rfl, ?_, fun hok => by simp at hok, fun _ => ⟨?_, ?_⟩⟩
          · show count ≤ count + 1
            omega
          · show count + 1 = 100001
            omega
          · show s.clock = s.clock + ((100000 - count : Nat) : Int)
            have h0 : (100000 - count : Nat) = 0 := by omega
            simp [h0]
        · rw [if_neg hcnt]
          have hrec := ih (count + 1)
            { clock := s.clock + 1, scheduled := (body s.world).2,
              running := s.running, world := (body s.world).1 }
            (by omega) (by omega)
          refine ⟨hrec.1, by omega, fun hok => ?_, fun herr => ?_⟩
          · obtain ⟨h1, h2⟩ := hrec.2.2.1 hok
            have := hrec.2.1
            refine ⟨h1, ?_⟩
            rw [h2]
            push_cast
            simp only [SchedState.mk.injEq] at *
            omega
          · obtain ⟨h1, h2⟩ := hrec.2.2.2 herr
            refine ⟨h1, ?_⟩
            rw [h2]
            push_cast
            omega
      · rw [if_neg hsch]
        refine ⟨rfl, le_refl _, fun _ => ⟨hc, ?_⟩, fun herr => by simp at herr⟩
        simp

/-- C4. `Scheduler.Run(body)`: if a run is already in progress the call
returns at once without invoking the body (the compare-and-swap on
`running` fails, so the state is untouched and the loop counter stays 0);
otherwise the loop repeats while `scheduled` is true, clearing it each
iteration, increments the clock before each invocation of the body (so
the final clock is the initial clock plus the number of invocations),
fails with the infinite-loop error exactly when the iteration count
reaches 100001 (i.e. exceeds 100000, after 100000 body invocations), and
resets `running` to `false` on every exit, the error exit included, so
the scheduler stays usable. -/
theorem claim_C4_scheduler_run {W : Type} (body : W → W × Bool) (s : SchedState W) :
    (s.running = true → Scheduler.run body s = (s, .ok, 0)) ∧
    (s.running = false →
      (Scheduler.run body s).1.running = false ∧
      ((Scheduler.run body s).2.1 = .ok →
         (Scheduler.run body s).2.2 ≤ 100000 ∧
         (Scheduler.run body s).1.clock = s.clock + ((Scheduler.run body s).2.2 : Int)) ∧
      ((Scheduler.run body s).2.1 = .infiniteLoop →
         (Scheduler.run body s).2.2 = 100001 ∧
         (Scheduler.run body s).1.clock = s.clock + 100000) ∧
      (s.scheduled = false → Scheduler.run body s = (s, .ok, 0))) := by
  constructor
  · intro hr
    rw [Scheduler.run, if_pos hr]
  · intro hr
    rw [Scheduler.run, if_neg (by simp [hr])]
    have h := scheduler_runLoop_spec body 100001 0
      { s with running := true } (by omega) (by omega)
    refine ⟨h.1, fun hok => ?_, fun herr => ?_, fun hs => ?_⟩
    · obtain ⟨h1, h2⟩ := h.2.2.1 hok
      exact ⟨h1, by simpa using h2⟩
    · obtain ⟨h1, h2⟩ := h.2.2.2 herr
      refine ⟨h1, ?_⟩
      rw [h2]
      norm_num
    · rw [Scheduler.runLoop, if_neg (by simp [hs])]
      cases s
      simp_all

/-- Concrete instantiations of `claim_C4_scheduler_run`: a scheduler that
is already running is left untouched, and a run from an idle scheduler
ends with `running = false`. -/
theorem claim_C4_scheduler_run_witness :
    Scheduler.run (fun w : Nat => (w + 1, false)) ⟨0, true, true, 0⟩
      = (⟨0, true, true, 0⟩, .ok, 0) ∧
    (Scheduler.run (fun w : Nat => (w + 1, false)) ⟨0, true, false, 0⟩).1.running = false := by
  constructor
  · exact (claim_C4_scheduler_run (fun w : Nat => (w + 1, false)) ⟨0, true, true, 0⟩).1 rfl
  · exact ((claim_C4_scheduler_run (fun w : Nat => (w + 1, false)) ⟨0, true, false, 0⟩).2 rfl).1

/-! ### Node-store access lemmas -/

theorem getD_set_general {α : Type} (l : List α) (i j : Nat) (x d : α) :
    (l.set i x).getD j d = if j = i ∧ i < l.length then x else l.getD j d := by
  by_cases h : j = i ∧ i < l.length
  · obtain ⟨rfl, hl⟩ := h
    simp [List.getD, List.getElem?_set, hl]
  · rw [if_neg h]
    simp only [List.getD_eq_getElem?_getD, List.getElem?_set]
    by_cases hj : i = j
    · subst hj
      have hl : ¬ i < l.length := fun hl => h ⟨rfl, hl⟩
      rw [if_pos rfl, if_neg hl, List.getElem?_eq_none (by omega)]
    · rw [if_neg hj]

theorem Rt.node_setNode (st : Rt) (i j : Nat) (f : Node → Node) :
    (st.setNode i f).node j
      = if j = i ∧ i < st.nodes.length then f (st.node i) else st.node j :=
  getD_set_general st.nodes i j (f (st.node i)) {}

theorem Rt.length_setNode (st : Rt) (i : Nat) (f : Node → Node) :
    (st.setNode i f).nodes.length = st.nodes.length := by
  simp [Rt.setNode]

theorem Rt.trace_setNode (st : Rt) (i : Nat) (f : Node → Node) :
    (st.setNode i f).trace = st.trace := rfl

theorem Rt.trace_setBucket (st : Rt) (h : Nat) (l : List Nat) :
    (st.setBucket h l).trace = st.trace := by
  rw [Rt.setBucket]
  split <;> rfl

theorem Rt.node_setBucket (st : Rt) (h : Nat) (l : List Nat) (j : Nat) :
    (st.setBucket h l).node j = st.node j := by
  rw [Rt.setBucket]
  split <;> rfl

/-! ### C9 -/

/-- C9. `Signal.Write` with a value equal (under `isEqual`: nil checks,
type check, direct equality for comparable kinds, recursive structural
comparison for the rest) to the current effective value returns with no
side effects at all: the state — pending slot, version, heap, scheduler —
is exactly unchanged. -/
theorem claim_C9_write_equal_noop (st : Rt) (sid : Nat) (v : GoVal) (fuel : Nat)
    (h : isEqual (Rt.effective (st.node sid)) v = true) :
    st.writeSignal sid v fuel = st := by
  simp [Rt.writeSignal, h]

/-- `claim_C9_write_equal_noop` at a slice value: the write of a
structurally equal (but not pointer-identical) slice is a no-op. -/
theorem claim_C9_write_equal_noop_witness :
    isEqual (Rt.effective (stC9.node 0)) (.slice [.int 1, .str "a"]) = true ∧
    stC9.writeSignal 0 (.slice [.int 1, .str "a"]) 4 = stC9 :=
  ⟨rfl, claim_C9_write_equal_noop stC9 0 (.slice [.int 1, .str "a"]) 4 rfl⟩

/-! ### C1 -/

/-- C1. The commit step never runs on written signals: nothing in the
source enqueues a written signal into the `NodeQueue`, so the
pending-signals list `Flush` commits is always empty. Evaluating the
code at the failing input — a fresh signal holding `0`, written with
`1`, which triggers a full flush — shows the flush ran (one `Flush`
entry, and the scheduler clock advanced) yet the pending slot still
holds `1`, the committed value is still `0`, and the pending-signals
queue is empty. The claim (and spec) require the committed value to
equal the pending value with the pending slot cleared after the flush. -/
theorem claim_C1_commit_never_runs :
    flushCount stC1w.trace = 1 ∧
    stC1w.clock = 1 ∧
    stC1w.nodeQueue = [] ∧
    (stC1w.node 0).pending = some (.int 1) ∧
    (stC1w.node 0).value = .int 0 :=
  ⟨rfl, rfl, rfl, rfl, rfl⟩

/-! ### C2 -/

/-- C2 counterexample: a signal with committed value `0` and staged
pending value `1`, read while no recomputation is running (the tracker
has no current computation): the read returns the pending `1`, not the
committed `0` the claim requires for readers outside the current
recomputation. -/
theorem claim_C2_counterexample :
    stC2.tracker.currentComputation = none ∧
    (stC2.node 0).pending = some (.int 1) ∧
    (stC2.node 0).value = .int 0 ∧
    (stC2.readSignal 0).2 = .int 1 ∧
    (stC2.readSignal 0).2 ≠ .int 0 := by
  refine ⟨rfl, rfl, rfl, rfl, ?_⟩
  rw [show (stC2.readSignal 0).2 = .int 1 from rfl]
  simp

theorem Rt.effectiveAt_setNode (st : Rt) (i j : Nat) (f : Node → Node)
    (hp : ∀ n, (f n).pending = n.pending) (hv : ∀ n, (f n).value = n.value) :
    Rt.effective ((st.setNode i f).node j) = Rt.effective (st.node j) := by
  rw [Rt.node_setNode]
  split
  · rename_i h
    obtain ⟨rfl, _⟩ := h
    simp [Rt.effective, hp, hv]
  · rfl

theorem Rt.effectiveAt_setNode_deps (st : Rt) (i j : Nat) (g : Node → List Nat) :
    Rt.effective ((st.setNode i fun m => { m with deps := g m }).node j)
      = Rt.effective (st.node j) :=
  Rt.effectiveAt_setNode st i j _ (fun _ => rfl) (fun _ => rfl)

theorem Rt.effectiveAt_setNode_subs (st : Rt) (i j : Nat) (g : Node → List Nat) :
    Rt.effective ((st.setNode i fun m => { m with subs := g m }).node j)
      = Rt.effective (st.node j) :=
  Rt.effectiveAt_setNode st i j _ (fun _ => rfl) (fun _ => rfl)

theorem Rt.effectiveAt_setNode_height (st : Rt) (i j : Nat) (g : Node → Nat) :
    Rt.effective ((st.setNode i fun m => { m with height := g m }).node j)
      = Rt.effective (st.node j) :=
  Rt.effectiveAt_setNode st i j _ (fun _ => rfl) (fun _ => rfl)

theorem Rt.effectiveAt_link (st : Rt) (a b j : Nat) :
    Rt.effective ((st.link a b).node j) = Rt.effective (st.node j) := by
  simp only [Rt.link]
  split
  · rfl
  · split
    · simp only [Rt.effectiveAt_setNode_height, Rt.effectiveAt_setNode_subs,
        Rt.effectiveAt_setNode_deps]
    · simp only [Rt.effectiveAt_setNode_subs, Rt.effectiveAt_setNode_deps]

theorem Rt.effectiveAt_track (st : Rt) (sid j : Nat) :
    Rt.effective ((st.track sid).node j) = Rt.effective (st.node j) := by
  rw [Rt.track]
  split
  · split
    · exact Rt.effectiveAt_link ..
    · rfl
  · rfl

/-- C2 (amended). Reads do not distinguish inside from outside the
current recomputation: `Signal.Read` returns the pending value whenever
one is staged — whatever the tracker's current computation is — and the
committed value only when no pending value is staged. -/
theorem claim_C2_read_returns_pending (st : Rt) (sid : Nat) :
    (st.readSignal sid).2 = (st.node sid).pending.getD (st.node sid).value := by
  show Rt.effective ((st.track sid).node sid) = _
  rw [Rt.effectiveAt_track]
  rfl

/-! ### C5 -/

/-- C5 counterexample: tracking is on, a current computation exists, and
the caller is on the recorded goroutine — the claim then asserts a
dependency link is created — yet because the signal is already the
computation's most recent dependency, `Track` changes nothing: no link
is created. -/
theorem claim_C5_counterexample :
    stC5.shouldTrack = true ∧
    (stC5.node 1).deps = [0] ∧
    stC5.track 0 = stC5 :=
  ⟨rfl, rfl, rfl⟩

/-- C5 (amended). `Tracker.Track(signal)` creates a dependency link —
appending the signal to the current computation's dep list and the
computation to the signal's sub list — iff tracking is on, a current
computation exists, the calling goroutine is the recorded one, *and*
the signal is not already the computation's most recent dependency;
in particular a goroutine mismatch, or tracking being off, leaves the
state untouched. -/
theorem claim_C5_track_amended (st : Rt) (sid comp : Nat)
    (hc : st.tracker.currentComputation = some comp)
    (hwf1 : comp < st.nodes.length) (hwf2 : sid < st.nodes.length) (hne : sid ≠ comp) :
    (st.curGID ≠ st.tracker.executingGID → st.track sid = st) ∧
    (st.tracker.tracking = false → st.track sid = st) ∧
    (st.shouldTrack = true →
      ((st.node comp).deps.getLast? = some sid → st.track sid = st) ∧
      ((st.node comp).deps.getLast? ≠ some sid →
        ((st.track sid).node comp).deps = (st.node comp).deps ++ [sid] ∧
        ((st.track sid).node sid).subs = (st.node sid).subs ++ [comp])) := by
  refine ⟨fun hgid => ?_, fun htr => ?_, fun hst => ⟨fun hlast => ?_, fun hlast => ?_⟩⟩
  · have h : st.shouldTrack = false := by
      simp [Rt.shouldTrack, beq_eq_false_iff_ne.mpr hgid]
    rw [Rt.track, h]
    simp
  · have h : st.shouldTrack = false := by
      simp [Rt.shouldTrack, htr]
    rw [Rt.track, h]
    simp
  · rw [Rt.track, hst, if_pos rfl, hc]
    have hnil : (st.node comp).deps ≠ [] := by
      intro hn
      rw [hn] at hlast
      simp at hlast
    simp only [Rt.link]
    rw [if_pos ⟨hnil, hlast⟩]
  · rw [Rt.track, hst, if_pos rfl, hc]
    simp only [Rt.link]
    rw [if_neg (fun hh => hlast hh.2)]
    have hcs : ¬ (comp = sid) := fun h => hne h.symm
    constructor
    · split <;>
        simp [Rt.node_setNode, Rt.length_setNode, hwf1, hwf2, hcs, hne]
    · split <;>
        simp [Rt.node_setNode, Rt.length_setNode, hwf1, hwf2, hcs, hne]

/-- `claim_C5_track_amended` at a concrete state: the memo has no
dependencies yet, so `Track` appends the link on both sides. -/
theorem claim_C5_track_amended_witness :
    ((stC5b.track 0).node 1).deps = (stC5b.node 1).deps ++ [0] ∧
    ((stC5b.track 0).node 0).subs = (stC5b.node 0).subs ++ [1] :=
  ((claim_C5_track_amended stC5b 0 1 rfl (by decide) (by decide)
    (by decide)).2.2 rfl).2 (by decide)

/-! ### C8 -/

theorem foldl_addChild_fields (o : OwnerM) (cs : List OwnerM) :
    (cs.foldl OwnerM.addChild o).children = cs.reverse ++ o.children ∧
    (cs.foldl OwnerM.addChild o).cleanups = o.cleanups ∧
    (cs.foldl OwnerM.addChild o).disposeListeners = o.disposeListeners := by
  induction cs generalizing o with
  | nil => simp
  | cons c cs ih =>
      obtain ⟨h1, h2, h3⟩ := ih (o.addChild c)
      refine ⟨?_, ?_, ?_⟩
      · rw [List.foldl_cons, h1]
        cases o with
        | mk a b d =>
            simp [OwnerM.addChild, OwnerM.children]
      · rw [List.foldl_cons, h2]
        cases o with
        | mk a b d =>
            simp [OwnerM.addChild, OwnerM.cleanups]
      · rw [List.foldl_cons, h3]
        cases o with
        | mk a b d =>
            simp [OwnerM.addChild, OwnerM.disposeListeners]

/-- C8 counterexample: a parent receives children `ownA` (cleanup 1)
then `ownB` (cleanup 2) through `AddChild`; `Dispose` runs the children
in *reverse* insertion order (2 before 1), not in insertion order as the
claim states. -/
theorem claim_C8_counterexample :
    (OwnerM.dispose ownParent).2
      = [.cleanup 2, .cleanup 1, .cleanup 10, .listener 20] ∧
    (OwnerM.dispose ownParent).2
      ≠ [.cleanup 1, .cleanup 2, .cleanup 10, .listener 20] :=
  ⟨rfl, by decide⟩

/-- C8 (amended). `Owner.Dispose` first disposes the children in
*reverse* insertion order (`AddChild` prepends, and `DisposeChildren`
follows the stored order), then runs the cleanups in insertion order
and clears them, then runs the dispose listeners in insertion order
*without* clearing them — a second `Dispose` runs no cleanups but fires
every dispose listener again. -/
theorem claim_C8_dispose_order (o : OwnerM) (cs : List OwnerM) :
    (OwnerM.dispose (cs.foldl OwnerM.addChild o)).2
      = OwnerM.disposeChildren (cs.reverse ++ o.children)
        ++ o.cleanups.map OEvent.cleanup
        ++ o.disposeListeners.map OEvent.listener ∧
    (OwnerM.dispose o).1 = .mk [] [] o.disposeListeners ∧
    (OwnerM.dispose (OwnerM.dispose o).1).2
      = o.disposeListeners.map OEvent.listener := by
  obtain ⟨h1, h2, h3⟩ := foldl_addChild_fields o cs
  refine ⟨?_, ?_, ?_⟩
  · cases hfold : cs.foldl OwnerM.addChild o with
    | mk ch cl dl =>
        rw [hfold] at h1 h2 h3
        cases o with
        | mk a b d =>
            simp only [OwnerM.children, OwnerM.cleanups,
              OwnerM.disposeListeners] at h1 h2 h3 ⊢
            simp [OwnerM.dispose, h1, h2, h3]
  · cases o with
    | mk a b d => simp [OwnerM.dispose, OwnerM.disposeListeners]
  · cases o with
    | mk a b d => simp [OwnerM.dispose, OwnerM.disposeChildren, OwnerM.disposeListeners]

/-! ### Frame lemmas for the bookkeeping steps of a recompute -/

theorem Rt.frameEq_refl (st : Rt) : st.FrameEq st :=
  ⟨rfl, rfl, rfl, fun _ => ⟨rfl, rfl, rfl, rfl, rfl, rfl⟩⟩

theorem Rt.frameEq_trans {a b c : Rt} (h1 : a.FrameEq b) (h2 : b.FrameEq c) :
    a.FrameEq c := by
  obtain ⟨t1, l1, c1, n1⟩ := h1
  obtain ⟨t2, l2, c2, n2⟩ := h2
  refine ⟨t2.trans t1, l2.trans l1, c2.trans c1, fun j => ?_⟩
  obtain ⟨a1, a2, a3, a4, a5, a6⟩ := n1 j
  obtain ⟨b1, b2, b3, b4, b5, b6⟩ := n2 j
  exact ⟨b1.trans a1, b2.trans a2, b3.trans a3, b4.trans a4,
    b5.trans a5, b6.trans a6⟩

theorem Rt.frameEq_setNode (st : Rt) (i : Nat) (f : Node → Node)
    (hf : ∀ n, (f n).pending = n.pending ∧ (f n).value = n.value ∧
      (f n).kind = n.kind ∧
      (f n).fnIsEffectRun = n.fnIsEffectRun ∧ (f n).reads = n.reads ∧
      (f n).fn = n.fn) :
    st.FrameEq (st.setNode i f) := by
  refine ⟨rfl, Rt.length_setNode .., rfl, fun j => ?_⟩
  rw [Rt.node_setNode]
  split
  · rename_i h
    obtain ⟨rfl, _⟩ := h
    exact hf (st.node j)
  · exact ⟨rfl, rfl, rfl, rfl, rfl, rfl⟩

theorem Rt.frameEq_link (st : Rt) (a b : Nat) : st.FrameEq (st.link a b) := by
  simp only [Rt.link]
  split
  · exact Rt.frameEq_refl st
  · split
    · refine Rt.frameEq_trans
        (Rt.frameEq_trans (Rt.frameEq_setNode _ _ _ ?_) (Rt.frameEq_setNode _ _ _ ?_))
        (Rt.frameEq_setNode _ _ _ ?_) <;>
        exact fun n => ⟨rfl, rfl, rfl, rfl, rfl, rfl⟩
    · refine Rt.frameEq_trans
        (Rt.frameEq_setNode _ _ _ ?_) (Rt.frameEq_setNode _ _ _ ?_) <;>
        exact fun n => ⟨rfl, rfl, rfl, rfl, rfl, rfl⟩

theorem Rt.frameEq_track (st : Rt) (sid : Nat) : st.FrameEq (st.track sid) := by
  rw [Rt.track]
  split
  · split
    · exact Rt.frameEq_link ..
    · exact Rt.frameEq_refl st
  · exact Rt.frameEq_refl st

theorem Rt.frameEq_readList (st : Rt) (ids : List Nat) :
    st.FrameEq (st.readList ids).1 := by
  induction ids generalizing st with
  | nil => exact Rt.frameEq_refl st
  | cons i rest ih =>
      rw [Rt.readList]
      exact Rt.frameEq_trans (Rt.frameEq_track st i) (ih (st.track i))

theorem Rt.frameEq_setBucket (st : Rt) (h : Nat) (l : List Nat) :
    st.FrameEq (st.setBucket h l) := by
  rw [Rt.setBucket]
  split
  · exact ⟨rfl, rfl, rfl, fun _ => ⟨rfl, rfl, rfl, rfl, rfl, rfl⟩⟩
  · exact ⟨rfl, rfl, rfl, fun _ => ⟨rfl, rfl, rfl, rfl, rfl, rfl⟩⟩

theorem Rt.frameEq_heapInsert (st : Rt) (nid : Nat) :
    st.FrameEq (st.heapInsert nid) := by
  simp only [Rt.heapInsert]
  split
  · exact Rt.frameEq_refl st
  · have h1 := Rt.frameEq_setNode st nid
      (fun m => { m with inHeap := true })
      (fun n => ⟨rfl, rfl, rfl, rfl, rfl, rfl⟩)
    have h2 := Rt.frameEq_setBucket (st.setNode nid fun m => { m with inHeap := true })
      (st.node nid).height
      ((st.setNode nid fun m => { m with inHeap := true }).bucket (st.node nid).height
        ++ [nid])
    have h12 := Rt.frameEq_trans h1 h2
    split
    · exact ⟨h12.1, h12.2.1, h12.2.2.1, h12.2.2.2⟩
    · exact h12

theorem Rt.frameEq_insertAll (st : Rt) (ids : List Nat) :
    st.FrameEq (st.insertAll ids) := by
  induction ids generalizing st with
  | nil => exact Rt.frameEq_refl st
  | cons i rest ih =>
      rw [Rt.insertAll, List.foldl_cons]
      exact Rt.frameEq_trans (Rt.frameEq_heapInsert st i) (ih (st.heapInsert i))

theorem Rt.effective_of_frameEq {st st' : Rt} (h : st.FrameEq st') (j : Nat) :
    Rt.effective (st'.node j) = Rt.effective (st.node j) := by
  obtain ⟨-, -, -, hn⟩ := h
  obtain ⟨hp, hv, -⟩ := hn j
  rw [Rt.effective, Rt.effective, hp, hv]

theorem Rt.readList_vals (st : Rt) (ids : List Nat) :
    (st.readList ids).2 = ids.map fun i => Rt.effective (st.node i) := by
  induction ids generalizing st with
  | nil => rfl
  | cons i rest ih =>
      rw [Rt.readList]
      show (Rt.effective ((st.track i).node i)) :: ((st.track i).readList rest).2 = _
      rw [Rt.effectiveAt_track, ih, List.map_cons]
      congr 1
      exact List.map_congr_left fun k _ => Rt.effectiveAt_track st i k

theorem getD_append_length {α : Type} (l : List α) (a d : α) :
    (l ++ [a]).getD l.length d = a := by
  rw [List.getD_append_right _ _ _ _ (le_refl _)]
  simp

/-- Running `Computed.run` on an uninitialized memo: the compute reads
its dependencies (whose effective values the bookkeeping has not
changed), applies `fn`, appends exactly one compute event, and stages
the result as the pending value. -/
theorem Rt.computedRun_spec (st : Rt) (nid : Nat)
    (hk : (st.node nid).kind = .memo)
    (hi : (st.node nid).initialized = false)
    (hl : nid < st.nodes.length) :
    (st.computedRun nid).trace
      = st.trace ++ [Event.compute nid
          ((st.node nid).fn ((st.node nid).reads.map fun i => Rt.effective (st.node i)))] ∧
    ((st.computedRun nid).node nid).pending
      = some ((st.node nid).fn
          ((st.node nid).reads.map fun i => Rt.effective (st.node i))) ∧
    (st.computedRun nid).nodes.length = st.nodes.length ∧
    (st.computedRun nid).clock = st.clock := by
  rw [Rt.computedRun, hi]
  simp only [Bool.false_eq_true, if_false]
  set stE := st.setNode nid fun m => { m with initialized := true } with hstE
  have hfrE : st.FrameEq stE :=
    Rt.frameEq_setNode st nid _ fun n => ⟨rfl, rfl, rfl, rfl, rfl, rfl⟩
  have hEnode : stE.node nid = { st.node nid with initialized := true } := by
    rw [hstE, Rt.node_setNode, if_pos ⟨rfl, hl⟩]
  have hEreads : (stE.node nid).reads = (st.node nid).reads := by rw [hEnode]
  rw [hEreads]
  set stF := (stE.readList (st.node nid).reads).1 with hstF
  have hfrF : stE.FrameEq stF := Rt.frameEq_readList ..
  have hfr : st.FrameEq stF := Rt.frameEq_trans hfrE hfrF
  have hvals : (stE.readList (st.node nid).reads).2
      = (st.node nid).reads.map fun i => Rt.effective (st.node i) := by
    rw [Rt.readList_vals]
    exact List.map_congr_left fun k _ => Rt.effective_of_frameEq hfrE k
  have hFkind : (stF.node nid).kind = .memo := ((hfr.2.2.2 nid).2.2.1).trans hk
  have hFfn : (stF.node nid).fn = (st.node nid).fn := (hfr.2.2.2 nid).2.2.2.2.2
  have hFtrace : stF.trace = st.trace := hfr.1
  have hFlen : stF.nodes.length = st.nodes.length := hfr.2.1
  have hFclock : stF.clock = st.clock := hfr.2.2.1
  rcases hRL : stE.readList (st.node nid).reads with ⟨stF', vals'⟩
  have hF' : stF' = stF := by rw [hstF, hRL]
  have hv' : vals' = (st.node nid).reads.map fun i => Rt.effective (st.node i) := by
    rw [← hvals, hRL]
  subst hF' hv'
  rw [hFkind]
  simp only []
  have hlen2 : nid < stF.nodes.length := by rw [hFlen]; exact hl
  refine ⟨?_, ?_, ?_, ?_⟩
  · rw [Rt.trace_setNode]
    show stF.trace ++ _ = _
    rw [hFtrace, hFfn]
  · rw [Rt.node_setNode, if_pos ⟨rfl, hlen2⟩]
    show some ((stF.node nid).fn _) = _
    rw [hFfn]
  · rw [Rt.length_setNode]
    exact hFlen
  · show stF.clock = st.clock
    exact hFclock

/-- Running `Runtime.recompute` on an uninitialized memo with no
dependency links yet (the state `NewComputed` hands it): one compute
event is appended and the result is staged as the pending value. -/
theorem Rt.recompute_spec (st : Rt) (nid : Nat)
    (hk : (st.node nid).kind = .memo)
    (hi : (st.node nid).initialized = false)
    (hd : (st.node nid).deps = [])
    (hfe : (st.node nid).fnIsEffectRun = false)
    (hl : nid < st.nodes.length) :
    (st.recompute nid).trace
      = st.trace ++ [Event.compute nid
          ((st.node nid).fn ((st.node nid).reads.map fun i => Rt.effective (st.node i)))] ∧
    ((st.recompute nid).node nid).pending
      = some ((st.node nid).fn
          ((st.node nid).reads.map fun i => Rt.effective (st.node i))) := by
  rw [Rt.recompute.eq_def, hk]
  simp only []
  have hB : st.clearDeps nid = st.setNode nid (fun m => { m with deps := [] }) := by
    rw [Rt.clearDeps, hd]
    rfl
  rw [hB]
  set stB := st.setNode nid (fun m => { m with deps := [] }) with hstB
  have hfrB : st.FrameEq stB :=
    Rt.frameEq_setNode _ _ _ fun n => ⟨rfl, rfl, rfl, rfl, rfl, rfl⟩
  have hBlen : nid < stB.nodes.length := by rw [hfrB.2.1]; exact hl
  have hBnode : stB.node nid = { (st.node nid) with deps := [] } := by
    rw [hstB, Rt.node_setNode, if_pos ⟨rfl, hl⟩]
  set stC := stB.setNode nid (fun m => { m with version := stB.clock }) with hstC
  have hfrC : st.FrameEq stC := by
    rw [hstC]
    exact Rt.frameEq_trans hfrB
      (Rt.frameEq_setNode _ _ _ fun n => ⟨rfl, rfl, rfl, rfl, rfl, rfl⟩)
  have hCnode : stC.node nid = { (stB.node nid) with version := stB.clock } := by
    rw [hstC, Rt.node_setNode, if_pos ⟨rfl, hBlen⟩]
  simp only [Rt.runWithComputation]
  set stC1 : Rt := { stC with tracker :=
    { stC.tracker with currentComputation := some nid, executingGID := stC.curGID } }
    with hstC1
  have hfrC1 : st.FrameEq stC1 :=
    Rt.frameEq_trans hfrC ⟨rfl, rfl, rfl, fun _ => ⟨rfl, rfl, rfl, rfl, rfl, rfl⟩⟩
  have hC1node : stC1.node nid = stC.node nid := rfl
  have hC1fnEff : (stC1.node nid).fnIsEffectRun = false := by
    rw [hC1node, hCnode, hBnode]
    exact hfe
  rw [hC1fnEff]
  simp only [Bool.false_eq_true, if_false]
  have hk1 : (stC1.node nid).kind = NodeKind.memo := by
    rw [hC1node, hCnode, hBnode]
    exact hk
  have hi1 : (stC1.node nid).initialized = false := by
    rw [hC1node, hCnode, hBnode]
    exact hi
  have hl1 : nid < stC1.nodes.length := by
    rw [hfrC1.2.1]
    exact hl
  obtain ⟨hT, hP, hL, hK⟩ := Rt.computedRun_spec stC1 nid hk1 hi1 hl1
  have hveq : (stC1.node nid).fn
      ((stC1.node nid).reads.map fun i => Rt.effective (stC1.node i))
      = (st.node nid).fn ((st.node nid).reads.map fun i => Rt.effective (st.node i)) := by
    have hfn : (stC1.node nid).fn = (st.node nid).fn := (hfrC1.2.2.2 nid).2.2.2.2.2
    have hrd : (stC1.node nid).reads = (st.node nid).reads := (hfrC1.2.2.2 nid).2.2.2.2.1
    rw [hfn, hrd]
    congr 1
    exact List.map_congr_left fun k _ => Rt.effective_of_frameEq hfrC1 k
  rw [hveq] at hT hP
  have htrC1 : stC1.trace = st.trace := hfrC1.1
  set stD : Rt := { stC1.computedRun nid with tracker :=
    { (stC1.computedRun nid).tracker with
        currentComputation := stC.tracker.currentComputation } } with hstD
  have hDtrace : stD.trace = (stC1.computedRun nid).trace := rfl
  have hDnode : ∀ j, stD.node j = (stC1.computedRun nid).node j := fun _ => rfl
  constructor
  · split
    · rw [hDtrace, hT, htrC1]
    · rw [(Rt.frameEq_insertAll stD _).1, hDtrace, hT, htrC1]
  · split
    · rw [hDnode nid, hP]
    · rw [((Rt.frameEq_insertAll stD _).2.2.2 nid).1, hDnode nid, hP]

set_option maxHeartbeats 1000000 in
/-- C10. `NewComputed(compute)` invokes the compute function exactly
once, synchronously, before returning — the trace grows by exactly one
compute event and nothing else (no write, no flush) — staging the result
as the fresh memo's pending value, so the memo's effective value equals
the compute's result immediately after creation. The value computed is
`fn` applied to the effective values of the nodes the compute reads. -/
theorem claim_C10_newComputed (st : Rt) (reads : List Nat) (f : List GoVal → GoVal) :
    (st.newComputed reads f).2 = st.nodes.length ∧
    (st.newComputed reads f).1.trace
      = st.trace ++ [Event.compute st.nodes.length
          (f (reads.map fun i =>
            Rt.effective ((st.addNode { kind := .memo, reads := reads, fn := f }).1.node i)))] ∧
    ((st.newComputed reads f).1.node st.nodes.length).pending
      = some (f (reads.map fun i =>
          Rt.effective ((st.addNode { kind := .memo, reads := reads, fn := f }).1.node i))) ∧
    Rt.effective ((st.newComputed reads f).1.node st.nodes.length)
      = f (reads.map fun i =>
          Rt.effective ((st.addNode { kind := .memo, reads := reads, fn := f }).1.node i)) := by
  have hnode : (st.addNode { kind := .memo, reads := reads, fn := f }).1.node st.nodes.length
      = { kind := .memo, reads := reads, fn := f } :=
    getD_append_length st.nodes _ _
  have hlen : st.nodes.length
      < (st.addNode { kind := .memo, reads := reads, fn := f }).1.nodes.length := by
    show st.nodes.length < (st.nodes ++ [_]).length
    simp
  have hmain := Rt.recompute_spec
    (st.addNode { kind := .memo, reads := reads, fn := f }).1 st.nodes.length
    (by rw [hnode]) (by rw [hnode]) (by rw [hnode]) (by rw [hnode]) hlen
  rw [hnode] at hmain
  have htr : (st.addNode { kind := .memo, reads := reads, fn := f }).1.trace = st.trace := rfl
  rw [htr] at hmain
  refine ⟨rfl, hmain.1, hmain.2, ?_⟩
  show ((st.newComputed reads f).1.node st.nodes.length).pending.getD _ = _
  rw [show (st.newComputed reads f).1
      = (st.addNode { kind := .memo, reads := reads, fn := f }).1.recompute st.nodes.length
    from rfl]
  rw [hmain.2]
  rfl

/-! ### C3: staged evaluation of the diamond flush -/

theorem diamond_eq_lit : diamond = diamondLit := rfl

set_option maxHeartbeats 1000000 in
theorem diamond_write (x : Int) (hx : ¬ ((0 : Int) = x)) :
    diamondLit.writeSignal 0 (.int x) 12 = Rt.flush (dW1 x) 12 := by
  simp [Rt.writeSignal, Rt.schedule, Rt.isBatching, Rt.insertAll, Rt.heapInsert,
    Rt.setBucket, Rt.bucket, Rt.setNode, Rt.node, Rt.effective, diamondLit, dW1,
    isEqual, GoVal.beq, GoVal.isNil, GoVal.sameType, GoVal.comparable, hx]

set_option maxHeartbeats 1000000 in
theorem diamond_step1 (x : Int) (hb : ¬ ((0 : Int) = 2 * x)) :
    ((dT0 x).heapRemove 1).recompute 1 = dT1 x := by
  simp [dT0, dT1, Rt.recompute, Rt.computedRun, Rt.effectEnqueue, Rt.runWithComputation,
    Rt.readList, Rt.readSignal, Rt.track, Rt.shouldTrack, Rt.link, Rt.clearDeps,
    Rt.disposeComputed, Rt.heapInsert, Rt.heapRemove, Rt.insertAll, Rt.setBucket,
    Rt.bucket, Rt.setNode, Rt.node, Rt.effective, doubleF,
    isEqual, GoVal.beq, GoVal.isNil, GoVal.sameType, GoVal.comparable, hb]

set_option maxHeartbeats 1000000 in
theorem diamond_step2 (x : Int) (hc : ¬ ((0 : Int) = 4 * x)) :
    ((dT1 x).heapRemove 2).recompute 2 = dT2 x := by
  simp [dT1, dT2, Rt.recompute, Rt.computedRun, Rt.effectEnqueue, Rt.runWithComputation,
    Rt.readList, Rt.readSignal, Rt.track, Rt.shouldTrack, Rt.link, Rt.clearDeps,
    Rt.disposeComputed, Rt.heapInsert, Rt.heapRemove, Rt.insertAll, Rt.setBucket,
    Rt.bucket, Rt.setNode, Rt.node, Rt.effective, quadF,
    isEqual, GoVal.beq, GoVal.isNil, GoVal.sameType, GoVal.comparable, hc]

set_option maxHeartbeats 1000000 in
theorem diamond_step3 (x : Int) (hd : ¬ ((0 : Int) = 2 * x + 4 * x)) :
    ((dT2 x).heapRemove 3).recompute 3 = dT3 x := by
  simp [dT2, dT3, Rt.recompute, Rt.computedRun, Rt.effectEnqueue, Rt.runWithComputation,
    Rt.readList, Rt.readSignal, Rt.track, Rt.shouldTrack, Rt.link, Rt.clearDeps,
    Rt.disposeComputed, Rt.heapInsert, Rt.heapRemove, Rt.insertAll, Rt.setBucket,
    Rt.bucket, Rt.setNode, Rt.node, Rt.effective, sumF,
    isEqual, GoVal.beq, GoVal.isNil, GoVal.sameType, GoVal.comparable, hd]

set_option maxHeartbeats 1000000 in
theorem diamond_step4 (x : Int) :
    ((dT3 x).heapRemove 4).recompute 4 = dT4 x := by
  simp [dT3, dT4, Rt.recompute, Rt.computedRun, Rt.effectEnqueue, Rt.runWithComputation,
    Rt.readList, Rt.readSignal, Rt.track, Rt.shouldTrack, Rt.link, Rt.clearDeps,
    Rt.disposeComputed, Rt.heapInsert, Rt.heapRemove, Rt.insertAll, Rt.setBucket,
    Rt.bucket, Rt.setNode, Rt.node, Rt.effective,
    isEqual, GoVal.beq, GoVal.isNil, GoVal.sameType, GoVal.comparable]

set_option maxHeartbeats 2000000 in
theorem diamond_drain (x : Int) (hb : ¬ ((0 : Int) = 2 * x))
    (hc : ¬ ((0 : Int) = 4 * x)) (hd : ¬ ((0 : Int) = 2 * x + 4 * x)) :
    Rt.drainAux (dT0 x) 12 0 = dT4 x := by
  have pm0 : (dT0 x).heapMax = 1 := rfl
  have pb00 : (dT0 x).bucket 0 = [] := rfl
  have pb01 : (dT0 x).bucket 1 = [1, 2] := rfl
  have pm1 : (dT1 x).heapMax = 2 := rfl
  have pb11 : (dT1 x).bucket 1 = [2] := rfl
  have pm2 : (dT2 x).heapMax = 2 := rfl
  have pb21 : (dT2 x).bucket 1 = [] := rfl
  have pb22 : (dT2 x).bucket 2 = [3] := rfl
  have pm3 : (dT3 x).heapMax = 3 := rfl
  have pb32 : (dT3 x).bucket 2 = [] := rfl
  have pb33 : (dT3 x).bucket 3 = [4] := rfl
  have pm4 : (dT4 x).heapMax = 3 := rfl
  have pb43 : (dT4 x).bucket 3 = [] := rfl
  simp [Rt.drainAux, pm0, pb00, pb01, pm1, pb11, pm2, pb21, pb22, pm3, pb32, pb33,
    pm4, pb43, diamond_step1 x hb, diamond_step2 x hc, diamond_step3 x hd,
    diamond_step4 x]

set_option maxHeartbeats 2000000 in
theorem diamond_body (x : Int) (hb : ¬ ((0 : Int) = 2 * x))
    (hc : ¬ ((0 : Int) = 4 * x)) (hd : ¬ ((0 : Int) = 2 * x + 4 * x)) :
    Rt.flushBody (dT0 x) 12 = dT5 x := by
  simp only [Rt.flushBody, Rt.drain, diamond_drain x hb hc hd]
  simp [dT4, dT5, Rt.commitQueue, Rt.commitSignal, Rt.runEffects, Rt.effectClosure,
    Rt.runWithComputation, Rt.computedRun, Rt.disposeComputed, Rt.readList,
    Rt.readSignal, Rt.track, Rt.shouldTrack, Rt.link, Rt.clearDeps, Rt.heapRemove,
    Rt.setBucket, Rt.bucket, Rt.setNode, Rt.node, Rt.effective]

/-- One iteration of the flush loop: when a flush is pending and the
iteration guard has not tripped, the loop clears `scheduled`, advances
the clock, and runs the body. -/
theorem Rt.flushLoop_step (fuel count sfuel : Nat) (st : Rt)
    (h : st.scheduled = true) (h2 : count + 1 ≤ 100000) :
    Rt.flushLoop fuel count st (sfuel + 1)
      = Rt.flushLoop fuel (count + 1)
          (Rt.flushBody { st with scheduled := false, clock := st.clock + 1 } fuel) sfuel := by
  rw [Rt.flushLoop]
  rw [if_pos h, if_neg (by omega : ¬ (count + 1 > 100000))]

/-- The flush loop exits as soon as no flush is scheduled. -/
theorem Rt.flushLoop_stop (fuel count sfuel : Nat) (st : Rt)
    (h : st.scheduled = false) :
    Rt.flushLoop fuel count st (sfuel + 1) = st := by
  rw [Rt.flushLoop]
  rw [if_neg (by simp [h] : ¬ (st.scheduled = true))]

set_option maxHeartbeats 1000000 in
theorem diamond_final (x : Int) (hx : x ≠ 0) :
    diamond.writeSignal 0 (.int x) 12 = { dT5 x with running := false } := by
  have hw : ¬ ((0 : Int) = x) := by omega
  have hb : ¬ ((0 : Int) = 2 * x) := by omega
  have hc : ¬ ((0 : Int) = 4 * x) := by omega
  have hd : ¬ ((0 : Int) = 2 * x + 4 * x) := by omega
  rw [diamond_eq_lit, diamond_write x hw]
  rw [show Rt.flush (dW1 x) 12
      = { Rt.flushLoop 12 0 (dW2 x) 100001 with running := false } from rfl]
  rw [show (100001 : Nat) = 100000 + 1 from rfl]
  rw [Rt.flushLoop_step 12 0 100000 (dW2 x) rfl (by omega)]
  rw [show ({ dW2 x with scheduled := false, clock := (dW2 x).clock + 1 } : Rt) = dT0 x
      from rfl]
  rw [diamond_body x hb hc hd]
  rw [show (100000 : Nat) = 99999 + 1 from rfl]
  rw [Rt.flushLoop_stop 12 (0 + 1) 99999 (dT5 x) rfl]

set_option maxHeartbeats 4000000 in
/-- C3 counterexample: in the diamond `a→b`, `a→c`, `{b,c}→d` where the
memos are constant (`b = 5`, `c = 7`, `d = b + c`), the write
`setA(1)` is a genuine change (the equality check fails), yet `d` is
recomputed zero times — not "exactly once" — because neither `b` nor
`c` changed value, so `d` never entered the dirty heap; the effect
subscribed to `d` does not run either. -/
theorem claim_C3_counterexample :
    isEqual (Rt.effective (diamondConst.node 0)) (.int 1) = false ∧
    ((diamondConst.writeSignal 0 (.int 1) 12).node 0).pending = some (.int 1) ∧
    computeCount
      ((diamondConst.writeSignal 0 (.int 1) 12).trace.drop diamondConst.trace.length) 3
      = 0 ∧
    runCount
      ((diamondConst.writeSignal 0 (.int 1) 12).trace.drop diamondConst.trace.length) 4
      = 0 := by
  exact ⟨rfl, rfl, rfl, rfl⟩

/-- C3 (amended). In the diamond `a→b`, `a→c`, `{b,c}→d` with
`b = 2a`, `c = 4a`, `d = b + c` and an effect subscribed to `d`: after
`setA(x)` with `x` different from the current value, the ensuing flush
recomputes `d` exactly once, and the subscriber observes exactly
`d(b(x), c(x)) = 2x + 4x` — never a mix of new and stale inputs. (As
stated the claim is false: when neither memo's value changes, `d`
recomputes zero times, see the counterexample.) -/
theorem claim_C3_diamond (x : Int) (hx : x ≠ 0) :
    (diamond.writeSignal 0 (.int x) 12).trace
      = diamond.trace ++
        [Event.flush, Event.compute 1 (.int (2 * x)), Event.compute 2 (.int (4 * x)),
         Event.compute 3 (.int (2 * x + 4 * x)),
         Event.effectRun 4 [.int (2 * x + 4 * x)]] ∧
    computeCount
      ((diamond.writeSignal 0 (.int x) 12).trace.drop diamond.trace.length) 3 = 1 ∧
    runCount
      ((diamond.writeSignal 0 (.int x) 12).trace.drop diamond.trace.length) 4 = 1 ∧
    Rt.effective ((diamond.writeSignal 0 (.int x) 12).node 3) = .int (2 * x + 4 * x) := by
  rw [diamond_final x hx]
  exact ⟨rfl, rfl, rfl, rfl⟩

/-- `claim_C3_diamond` at `x = 10`. -/
theorem claim_C3_diamond_witness :
    computeCount
      ((diamond.writeSignal 0 (.int 10) 12).trace.drop diamond.trace.length) 3 = 1 ∧
    Rt.effective ((diamond.writeSignal 0 (.int 10) 12).node 3) = .int (2 * 10 + 4 * 10) :=
  ⟨(claim_C3_diamond 10 (by decide)).2.1, (claim_C3_diamond 10 (by decide)).2.2.2⟩

/-! ### C7: batched writes in the signal-memo-effect chain -/

set_option maxHeartbeats 1000000 in
theorem chain_eq_litA (f : Int → Int) :
    (((({} : Rt).newSignal (.int 0)).1).newComputed [0] (liftF f)).1 = chainA f := by
  simp [chainA, Rt.newSignal, Rt.newComputed, Rt.addNode,
    Rt.recompute, Rt.computedRun, Rt.effectEnqueue, Rt.runWithComputation, Rt.readList,
    Rt.readSignal, Rt.track, Rt.shouldTrack, Rt.link, Rt.clearDeps, Rt.disposeComputed,
    Rt.heapInsert, Rt.heapRemove, Rt.insertAll, Rt.setBucket, Rt.bucket, Rt.setNode,
    Rt.node, Rt.effective, liftF, isEqual, GoVal.beq, GoVal.isNil, GoVal.sameType,
    GoVal.comparable]

set_option maxHeartbeats 1000000 in
theorem chain_eq_litB (f : Int → Int) : ((chainA f).newEffect .user [1]).1 = chainLit f := by
  simp [chainA, chainLit, Rt.newEffect, Rt.addNode,
    Rt.recompute, Rt.computedRun, Rt.effectEnqueue, Rt.runWithComputation, Rt.readList,
    Rt.readSignal, Rt.track, Rt.shouldTrack, Rt.link, Rt.clearDeps, Rt.disposeComputed,
    Rt.heapInsert, Rt.heapRemove, Rt.insertAll, Rt.setBucket, Rt.bucket, Rt.setNode,
    Rt.node, Rt.effective, liftF, isEqual, GoVal.beq, GoVal.isNil, GoVal.sameType,
    GoVal.comparable]

set_option maxHeartbeats 1000000 in
theorem chain_eq_lit (f : Int → Int) : chain f = chainLit f := by
  rw [show chain f
      = ((((({} : Rt).newSignal (.int 0)).1).newComputed [0] (liftF f)).1.newEffect
          .user [1]).1 from rfl]
  rw [chain_eq_litA, chain_eq_litB]

set_option maxHeartbeats 1000000 in
theorem chain_write_S0 (f : Int → Int) (v : Int) :
    (chainS0 f).writeSignal 0 (.int v) 12
      = if (0 : Int) = v then chainS0 f else chainS1 f v := by
  by_cases h : (0 : Int) = v
  · rw [if_pos h]
    simp [Rt.writeSignal, Rt.node, Rt.effective, chainS0, chainLit, isEqual,
      GoVal.beq, GoVal.isNil, GoVal.sameType, GoVal.comparable, ← h]
  · rw [if_neg h]
    simp [Rt.writeSignal, Rt.schedule, Rt.isBatching, Rt.insertAll, Rt.heapInsert,
      Rt.setBucket, Rt.bucket, Rt.setNode, Rt.node, Rt.effective, chainS0, chainLit,
      chainS1, isEqual, GoVal.beq, GoVal.isNil, GoVal.sameType, GoVal.comparable, h]

set_option maxHeartbeats 1000000 in
theorem chain_write_S1 (f : Int → Int) (cur v : Int) :
    (chainS1 f cur).writeSignal 0 (.int v) 12
      = if cur = v then chainS1 f cur else chainS1 f v := by
  by_cases h : cur = v
  · rw [if_pos h]
    simp [Rt.writeSignal, Rt.node, Rt.effective, chainS1, isEqual,
      GoVal.beq, GoVal.isNil, GoVal.sameType, GoVal.comparable, h]
  · rw [if_neg h]
    simp [Rt.writeSignal, Rt.schedule, Rt.isBatching, Rt.insertAll, Rt.heapInsert,
      Rt.setBucket, Rt.bucket, Rt.setNode, Rt.node, Rt.effective, chainS1, isEqual,
      GoVal.beq, GoVal.isNil, GoVal.sameType, GoVal.comparable, h]

theorem chain_execCmds_S1 (f : Int → Int) (ws : List Int) :
    ∀ cur, execCmds (chainS1 f cur) 12 (wCmds ws) = chainS1 f (ws.getLastD cur) := by
  induction ws with
  | nil => intro cur; rfl
  | cons v rest ih =>
      intro cur
      rw [show wCmds (v :: rest) = Cmd.write 0 (.int v) :: wCmds rest from rfl]
      rw [execCmds, execCmd]
      rw [chain_write_S1 f cur v]
      by_cases h : cur = v
      · rw [if_pos h, ih cur, List.getLastD_cons, h]
      · rw [if_neg h, ih v, List.getLastD_cons]

theorem chain_execCmds_S0 (f : Int → Int) (ws : List Int) :
    execCmds (chainS0 f) 12 (wCmds ws)
      = if ws.all (fun v => v == 0) = true then chainS0 f
        else chainS1 f (ws.getLastD 0) := by
  induction ws with
  | nil => rfl
  | cons v rest ih =>
      rw [show wCmds (v :: rest) = Cmd.write 0 (.int v) :: wCmds rest from rfl]
      rw [execCmds, execCmd]
      rw [chain_write_S0 f v]
      by_cases h : (0 : Int) = v
      · rw [if_pos h, ih]
        have hv : (v == (0 : Int)) = true := by simp [← h]
        have hcond : ((v :: rest).all (fun w => w == 0)) = (rest.all (fun w => w == 0)) := by
          simp [List.all_cons, hv]
        rw [hcond, List.getLastD_cons, ← h]
      · rw [if_neg h, chain_execCmds_S1 f rest v]
        rw [if_neg (show ¬ ((v :: rest).all (fun w => w == 0) = true) from by
          simp only [List.all_cons, Bool.and_eq_true, beq_iff_eq]
          intro hh
          exact h hh.1.symm)]
        rw [List.getLastD_cons]

theorem all_zero_getLastD (ws : List Int) :
    ws.all (fun v => v == 0) = true → ws.getLastD 0 = 0 := by
  induction ws with
  | nil => intro _; rfl
  | cons v rest ih =>
      intro h
      rw [List.all_cons, Bool.and_eq_true] at h
      have hv : v = 0 := by simpa using h.1
      rw [List.getLastD_cons, hv]
      exact ih h.2

set_option maxHeartbeats 1000000 in
theorem chain_flush_idle (f : Int → Int) :
    Rt.flush (chainLit f) 12
      = { chainLit f with trace := (chainLit f).trace ++ [Event.flush] } := by
  rw [show Rt.flush (chainLit f) 12
      = { Rt.flushLoop 12 0
            { chainLit f with
              trace := (chainLit f).trace ++ [Event.flush], running := true } 100001 with
          running := false } from rfl]
  rw [show (100001 : Nat) = 100000 + 1 from rfl]
  rw [Rt.flushLoop_stop 12 0 100000
    { chainLit f with trace := (chainLit f).trace ++ [Event.flush], running := true } rfl]
  rfl

set_option maxHeartbeats 1000000 in
theorem chain_step1_ne (f : Int → Int) (cur : Int) (h : ¬ (f 0 = f cur)) :
    ((cT0 f cur).heapRemove 1).recompute 1 = cT1 f cur := by
  simp [cT0, cT1, Rt.recompute, Rt.computedRun, Rt.effectEnqueue, Rt.runWithComputation,
    Rt.readList, Rt.readSignal, Rt.track, Rt.shouldTrack, Rt.link, Rt.clearDeps,
    Rt.disposeComputed, Rt.heapInsert, Rt.heapRemove, Rt.insertAll, Rt.setBucket,
    Rt.bucket, Rt.setNode, Rt.node, Rt.effective, liftF,
    isEqual, GoVal.beq, GoVal.isNil, GoVal.sameType, GoVal.comparable, h]

set_option maxHeartbeats 1000000 in
theorem chain_step1_eqv (f : Int → Int) (cur : Int) (h : f 0 = f cur) :
    ((cT0 f cur).heapRemove 1).recompute 1 = cU1 f cur := by
  simp [cT0, cU1, Rt.recompute, Rt.computedRun, Rt.effectEnqueue, Rt.runWithComputation,
    Rt.readList, Rt.readSignal, Rt.track, Rt.shouldTrack, Rt.link, Rt.clearDeps,
    Rt.disposeComputed, Rt.heapInsert, Rt.heapRemove, Rt.insertAll, Rt.setBucket,
    Rt.bucket, Rt.setNode, Rt.node, Rt.effective, liftF,
    isEqual, GoVal.beq, GoVal.isNil, GoVal.sameType, GoVal.comparable, ← h]

set_option maxHeartbeats 1000000 in
theorem chain_step2 (f : Int → Int) (cur : Int) :
    ((cT1 f cur).heapRemove 2).recompute 2 = cT2 f cur := by
  simp [cT1, cT2, Rt.recompute, Rt.computedRun, Rt.effectEnqueue, Rt.runWithComputation,
    Rt.readList, Rt.readSignal, Rt.track, Rt.shouldTrack, Rt.link, Rt.clearDeps,
    Rt.disposeComputed, Rt.heapInsert, Rt.heapRemove, Rt.insertAll, Rt.setBucket,
    Rt.bucket, Rt.setNode, Rt.node, Rt.effective,
    isEqual, GoVal.beq, GoVal.isNil, GoVal.sameType, GoVal.comparable]

set_option maxHeartbeats 2000000 in
theorem chain_drain_ne (f : Int → Int) (cur : Int) (h : ¬ (f 0 = f cur)) :
    Rt.drainAux (cT0 f cur) 12 0 = cT2 f cur := by
  have pm0 : (cT0 f cur).heapMax = 1 := rfl
  have pb00 : (cT0 f cur).bucket 0 = [] := rfl
  have pb01 : (cT0 f cur).bucket 1 = [1] := rfl
  have pm1 : (cT1 f cur).heapMax = 2 := rfl
  have pb11 : (cT1 f cur).bucket 1 = [] := rfl
  have pb12 : (cT1 f cur).bucket 2 = [2] := rfl
  have pm2 : (cT2 f cur).heapMax = 2 := rfl
  have pb22 : (cT2 f cur).bucket 2 = [] := rfl
  simp [Rt.drainAux, pm0, pb00, pb01, pm1, pb11, pb12, pm2, pb22,
    chain_step1_ne f cur h, chain_step2 f cur]

set_option maxHeartbeats 2000000 in
theorem chain_drain_eqv (f : Int → Int) (cur : Int) (h : f 0 = f cur) :
    Rt.drainAux (cT0 f cur) 12 0 = cU1 f cur := by
  have pm0 : (cT0 f cur).heapMax = 1 := rfl
  have pb00 : (cT0 f cur).bucket 0 = [] := rfl
  have pb01 : (cT0 f cur).bucket 1 = [1] := rfl
  have pm1 : (cU1 f cur).heapMax = 1 := rfl
  have pb11 : (cU1 f cur).bucket 1 = [] := rfl
  simp [Rt.drainAux, pm0, pb00, pb01, pm1, pb11, chain_step1_eqv f cur h]

set_option maxHeartbeats 2000000 in
theorem chain_body_ne (f : Int → Int) (cur : Int) (h : ¬ (f 0 = f cur)) :
    Rt.flushBody (cT0 f cur) 12 = cT3 f cur := by
  simp only [Rt.flushBody, Rt.drain, chain_drain_ne f cur h]
  simp [cT2, cT3, Rt.commitQueue, Rt.commitSignal, Rt.runEffects, Rt.effectClosure,
    Rt.runWithComputation, Rt.computedRun, Rt.disposeComputed, Rt.readList,
    Rt.readSignal, Rt.track, Rt.shouldTrack, Rt.link, Rt.clearDeps, Rt.heapRemove,
    Rt.setBucket, Rt.bucket, Rt.setNode, Rt.node, Rt.effective]

set_option maxHeartbeats 2000000 in
theorem chain_body_eqv (f : Int → Int) (cur : Int) (h : f 0 = f cur) :
    Rt.flushBody (cT0 f cur) 12 = cU2 f cur := by
  simp only [Rt.flushBody, Rt.drain, chain_drain_eqv f cur h]
  simp [cU1, cU2, Rt.commitQueue, Rt.commitSignal, Rt.runEffects, Rt.effectClosure,
    Rt.setNode, Rt.node]

set_option maxHeartbeats 1000000 in
theorem chain_flush_ne (f : Int → Int) (cur : Int) (h : ¬ (f 0 = f cur)) :
    Rt.flush { chainS1 f cur with depth := 0 } 12 = { cT3 f cur with running := false } := by
  rw [show Rt.flush { chainS1 f cur with depth := 0 } 12
      = { Rt.flushLoop 12 0 (cW f cur) 100001 with running := false } from rfl]
  rw [show (100001 : Nat) = 100000 + 1 from rfl]
  rw [Rt.flushLoop_step 12 0 100000 (cW f cur) rfl (by omega)]
  rw [show ({ cW f cur with scheduled := false, clock := (cW f cur).clock + 1 } : Rt)
      = cT0 f cur from rfl]
  rw [chain_body_ne f cur h]
  rw [show (100000 : Nat) = 99999 + 1 from rfl]
  rw [Rt.flushLoop_stop 12 (0 + 1) 99999 (cT3 f cur) rfl]

set_option maxHeartbeats 1000000 in
theorem chain_flush_eqv (f : Int → Int) (cur : Int) (h : f 0 = f cur) :
    Rt.flush { chainS1 f cur with depth := 0 } 12 = { cU2 f cur with running := false } := by
  rw [show Rt.flush { chainS1 f cur with depth := 0 } 12
      = { Rt.flushLoop 12 0 (cW f cur) 100001 with running := false } from rfl]
  rw [show (100001 : Nat) = 100000 + 1 from rfl]
  rw [Rt.flushLoop_step 12 0 100000 (cW f cur) rfl (by omega)]
  rw [show ({ cW f cur with scheduled := false, clock := (cW f cur).clock + 1 } : Rt)
      = cT0 f cur from rfl]
  rw [chain_body_eqv f cur h]
  rw [show (100000 : Nat) = 99999 + 1 from rfl]
  rw [Rt.flushLoop_stop 12 (0 + 1) 99999 (cU2 f cur) rfl]

set_option maxHeartbeats 1000000 in
theorem chain_batch_cases (f : Int → Int) (ws : List Int) :
    execCmd (chain f) 12 (Cmd.batch (wCmds ws))
      = if ws.all (fun v => v == 0) = true
        then Rt.flush (chainLit f) 12
        else Rt.flush { chainS1 f (ws.getLastD 0) with depth := 0 } 12 := by
  simp only [execCmd]
  rw [chain_eq_lit]
  rw [show ({ chainLit f with depth := (chainLit f).depth + 1 } : Rt) = chainS0 f from rfl]
  rw [chain_execCmds_S0 f ws]
  by_cases hall : ws.all (fun v => v == 0) = true
  · rw [if_pos hall]
    rw [if_pos (show (chainS0 f).depth - 1 = 0 from rfl)]
    rw [if_pos hall]
    rfl
  · rw [if_neg hall]
    rw [if_pos (show (chainS1 f (ws.getLastD 0)).depth - 1 = 0 from rfl)]
    rw [if_neg hall]
    rfl

set_option maxHeartbeats 2000000 in
/-- C7. In the chain `s → m → e` (`chain f`: signal `0`, memo `m = f s`
id `1`, user effect `e` reading `m` id `2`), running a batch of writes
`ws` to `s`: (i) inside the batch the writes only stash the last pending
value, put the memo in the dirty heap and mark `scheduled` (the state is
exactly `chainS1`), and the trace is unchanged — no flush and no
recompute happens during the batch; (ii) the trace added by the whole
batch holds exactly one `Flush` entry, at most one recompute of the
memo and at most one run of the effect body, however many writes `ws`
holds; (iii) the last values the effect body observed are
`[f (ws.getLastD 0)]` — the batch's final signal value — and the
signal's effective value is `ws.getLastD 0`. -/
theorem claim_C7_batch (f : Int → Int) (ws : List Int) :
    execCmds { chain f with depth := 1 } 12 (wCmds ws)
      = (if ws.all (fun v => v == 0) = true then { chain f with depth := 1 }
         else chainS1 f (ws.getLastD 0)) ∧
    (execCmds { chain f with depth := 1 } 12 (wCmds ws)).trace = (chain f).trace ∧
    flushCount ((execCmd (chain f) 12 (Cmd.batch (wCmds ws))).trace.drop
      (chain f).trace.length) = 1 ∧
    computeCount ((execCmd (chain f) 12 (Cmd.batch (wCmds ws))).trace.drop
      (chain f).trace.length) 1 ≤ 1 ∧
    runCount ((execCmd (chain f) 12 (Cmd.batch (wCmds ws))).trace.drop
      (chain f).trace.length) 2 ≤ 1 ∧
    lastRun (execCmd (chain f) 12 (Cmd.batch (wCmds ws))).trace 2
      = some [.int (f (ws.getLastD 0))] ∧
    Rt.effective ((execCmd (chain f) 12 (Cmd.batch (wCmds ws))).node 0)
      = .int (ws.getLastD 0) := by
  by_cases hall : ws.all (fun v => v == 0) = true
  · have hlast : ws.getLastD 0 = 0 := all_zero_getLastD ws hall
    have hfin : execCmd (chain f) 12 (Cmd.batch (wCmds ws))
        = { chainLit f with trace := (chainLit f).trace ++ [Event.flush] } := by
      rw [chain_batch_cases f ws, if_pos hall, chain_flush_idle f]
    have hbody : execCmds { chain f with depth := 1 } 12 (wCmds ws) = chainS0 f := by
      rw [chain_eq_lit]
      rw [show ({ chainLit f with depth := 1 } : Rt) = chainS0 f from rfl]
      rw [chain_execCmds_S0 f ws, if_pos hall]
    rw [hfin, hbody, chain_eq_lit, hlast]
    exact ⟨by rw [if_pos hall]; rfl, rfl, rfl, Nat.zero_le 1, Nat.zero_le 1, rfl, rfl⟩
  · have hfin : execCmd (chain f) 12 (Cmd.batch (wCmds ws))
        = Rt.flush { chainS1 f (ws.getLastD 0) with depth := 0 } 12 := by
      rw [chain_batch_cases f ws, if_neg hall]
    have hbody : execCmds { chain f with depth := 1 } 12 (wCmds ws)
        = chainS1 f (ws.getLastD 0) := by
      rw [chain_eq_lit]
      rw [show ({ chainLit f with depth := 1 } : Rt) = chainS0 f from rfl]
      rw [chain_execCmds_S0 f ws, if_neg hall]
    by_cases hf : f 0 = f (ws.getLastD 0)
    · rw [hfin, chain_flush_eqv f (ws.getLastD 0) hf, hbody, chain_eq_lit]
      refine ⟨by rw [if_neg hall], rfl, rfl, Nat.le_refl 1, Nat.zero_le 1, ?_, rfl⟩
      rw [show lastRun ({ cU2 f (ws.getLastD 0) with running := false } : Rt).trace 2
          = some [GoVal.int (f 0)] from rfl, hf]
    · rw [hfin, chain_flush_ne f (ws.getLastD 0) hf, hbody, chain_eq_lit]
      exact ⟨by rw [if_neg hall], rfl, rfl, Nat.le_refl 1, Nat.le_refl 1, rfl, rfl⟩

/-! ### C6: the drain order of the priority heap -/

theorem getD_of_le {α : Type} (l : List α) (d : α) (i : Nat) (h : l.length ≤ i) :
    l.getD i d = d := by
  rw [List.getD_eq_getElem?_getD, List.getElem?_eq_none h]
  rfl

theorem flatten_nil_of_forall (L : List (List Nat)) (h : ∀ l ∈ L, l = []) :
    L.flatten = [] := by
  induction L with
  | nil => rfl
  | cons b bs ih =>
      rw [List.flatten_cons, h b (List.mem_cons_self b bs), List.nil_append]
      exact ih fun l hl => h l (List.mem_cons_of_mem b hl)

theorem drop_flatten_getD (L : List (List Nat)) : ∀ i : Nat,
    (L.drop i).flatten = L.getD i [] ++ (L.drop (i + 1)).flatten := by
  induction L with
  | nil => intro i; simp
  | cons b bs ih =>
      intro i
      cases i with
      | zero => simp
      | succ i => simpa using ih i

theorem drop_set_succ (L : List (List Nat)) : ∀ (i : Nat) (x : List Nat),
    (L.set i x).drop (i + 1) = L.drop (i + 1) := by
  induction L with
  | nil => intro i x; rfl
  | cons b bs ih =>
      intro i x
      cases i with
      | zero => rfl
      | succ i => simpa using ih i x

theorem count_set_cons (L : List (List Nat)) : ∀ (i nid : Nat) (rest : List Nat),
    L.getD i [] = nid :: rest →
    ((L.set i rest).map List.length).sum + 1 = (L.map List.length).sum := by
  induction L with
  | nil => intro i nid rest h; simp at h
  | cons b bs ih =>
      intro i nid rest h
      cases i with
      | zero =>
          rw [List.getD_cons_zero] at h
          subst h
          simp [List.sum_cons]
          omega
      | succ i =>
          rw [List.getD_cons_succ] at h
          simp only [List.set_cons_succ, List.map_cons, List.sum_cons]
          have := ih i nid rest h
          omega

theorem const_pairwise (c : Nat) : ∀ l : List Nat,
    (∀ x ∈ l, x = c) → l.Pairwise (fun a b => a ≤ b) := by
  intro l
  induction l with
  | nil => intro _; exact List.Pairwise.nil
  | cons b bs ih =>
      intro h
      refine List.Pairwise.cons ?_ (ih fun x hx => h x (List.mem_cons_of_mem b hx))
      intro y hy
      rw [h b (List.mem_cons_self b bs), h y (List.mem_cons_of_mem b hy)]

theorem sorted_flatten_aux : ∀ (L : List (List Nat)) (f : Nat → Nat) (base : Nat),
    (∀ i n, n ∈ L.getD i [] → f n = base + i) →
    ((L.flatten).map f).Pairwise (fun a b => a ≤ b) := by
  intro L
  induction L with
  | nil => intro f base h; exact List.Pairwise.nil
  | cons b bs ih =>
      intro f base h
      rw [List.flatten_cons, List.map_append, List.pairwise_append]
      refine ⟨?_, ?_, ?_⟩
      · apply const_pairwise base
        intro x hx
        rw [List.mem_map] at hx
        obtain ⟨n, hn, rfl⟩ := hx
        simpa using h 0 n (by rwa [List.getD_cons_zero])
      · exact ih f (base + 1) fun i n hn => by
          have := h (i + 1) n (by rwa [List.getD_cons_succ])
          omega
      · intro a ha c hc
        rw [List.mem_map] at ha hc
        obtain ⟨n, hn, rfl⟩ := ha
        obtain ⟨m, hm, rfl⟩ := hc
        have h1 : f n = base := by simpa using h 0 n (by rwa [List.getD_cons_zero])
        rw [List.mem_flatten] at hm
        obtain ⟨l, hl, hml⟩ := hm
        rw [List.mem_iff_getElem] at hl
        obtain ⟨i, hi, rfl⟩ := hl
        have h2 : f m = base + (i + 1) := by
          refine h (i + 1) m ?_
          rw [List.getD_cons_succ, List.getD_eq_getElem bs [] hi]
          exact hml
        omega

theorem HeapM.drop_flatten_nil (h : HeapM) (minv : Nat)
    (h1 : ∀ j, h.maxH < j → h.bucketAt j = []) (hm : h.maxH < minv) :
    (h.buckets.drop minv).flatten = [] := by
  apply flatten_nil_of_forall
  intro l hl
  rw [List.mem_iff_getElem] at hl
  obtain ⟨i, hi, hl⟩ := hl
  have hlen : minv + i < h.buckets.length := by
    rw [List.length_drop] at hi
    omega
  have hbl : h.bucketAt (minv + i) = l := by
    rw [HeapM.bucketAt, List.getD_eq_getElem h.buckets [] hlen, ← hl]
    rw [List.getElem_drop]
  rw [← hbl]
  exact h1 _ (by omega)

theorem HeapM.remove_spec (h : HeapM) (minv nid : Nat) (rest : List Nat)
    (hmem : nid ∈ h.flags) (hh : h.heightOf nid = minv) (hb : h.bucketAt minv = nid :: rest)
    (hlen : minv < h.buckets.length) :
    h.remove nid = h.pop nid minv rest := by
  simp only [HeapM.remove]
  rw [if_pos hmem]
  have hh2 : ({ h with flags := h.flags.erase nid } : HeapM).heightOf nid = minv := hh
  rw [hh2]
  have hb2 : ({ h with flags := h.flags.erase nid } : HeapM).bucketAt minv = nid :: rest := hb
  rw [hb2, List.erase_cons_head]
  simp only [HeapM.setBucket]
  rw [if_pos (show minv < ({ h with flags := h.flags.erase nid } : HeapM).buckets.length
    from hlen)]
  rfl

theorem HeapM.pop_bucketAt (h : HeapM) (minv nid : Nat) (rest : List Nat)
    (hlen : minv < h.buckets.length) :
    ∀ j, (h.pop nid minv rest).bucketAt j = if j = minv then rest else h.bucketAt j := by
  intro j
  show (h.buckets.set minv rest).getD j [] = _
  rw [getD_set_general]
  by_cases hj : j = minv
  · rw [if_pos ⟨hj, hlen⟩, if_pos hj]
  · rw [if_neg (fun hc => hj hc.1), if_neg hj]
    rfl

theorem HeapM.WF_pop (h : HeapM) (minv nid : Nat) (rest : List Nat) (hwf : HeapM.WF h)
    (hb : h.bucketAt minv = nid :: rest) (hlen : minv < h.buckets.length)
    (hm : minv ≤ h.maxH) :
    HeapM.WF (h.pop nid minv rest) := by
  obtain ⟨w1, w2, w3, w4⟩ := hwf
  have hB := HeapM.pop_bucketAt h minv nid rest hlen
  refine ⟨?_, ?_, ?_, ?_⟩
  · intro j hj
    have hj2 : h.maxH < j := hj
    rw [hB j, if_neg (by omega : ¬ j = minv)]
    exact w1 j hj2
  · intro j n hn
    rw [hB j] at hn
    by_cases hj : j = minv
    · rw [if_pos hj] at hn
      show h.heightOf n = j
      rw [hj]
      exact w2 minv n (by rw [hb]; exact List.mem_cons_of_mem nid hn)
    · rw [if_neg hj] at hn
      exact w2 j n hn
  · intro j n hn
    rw [hB j] at hn
    have hne : n ≠ nid := by
      by_cases hj : j = minv
      · rw [if_pos hj] at hn
        have hnd := w4 minv
        rw [hb] at hnd
        intro he
        subst he
        exact (List.nodup_cons.mp hnd).1 hn
      · rw [if_neg hj] at hn
        intro he
        subst he
        have hA : h.heightOf n = minv :=
          w2 minv n (by rw [hb]; exact List.mem_cons_self n rest)
        have hC : h.heightOf n = j := w2 j n hn
        omega
    have hmem2 : n ∈ h.flags := by
      by_cases hj : j = minv
      · rw [if_pos hj] at hn
        exact w3 minv n (by rw [hb]; exact List.mem_cons_of_mem nid hn)
      · rw [if_neg hj] at hn
        exact w3 j n hn
    show n ∈ h.flags.erase nid
    exact (List.mem_erase_of_ne hne).mpr hmem2
  · intro j
    rw [hB j]
    by_cases hj : j = minv
    · rw [if_pos hj]
      have hnd := w4 minv
      rw [hb] at hnd
      exact hnd.of_cons
    · rw [if_neg hj]
      exact w4 j

theorem HeapM.drainAux_passive : ∀ (fuel minv : Nat) (h : HeapM), HeapM.WF h →
    h.count + h.maxH + 2 ≤ fuel + minv →
    (HeapM.drainAux HeapM.passive fuel minv h).2 = (h.buckets.drop minv).flatten ∧
    ∀ j, (HeapM.drainAux HeapM.passive fuel minv h).1.bucketAt j
      = if j < minv then h.bucketAt j else [] := by
  intro fuel
  induction fuel with
  | zero =>
      intro minv h hwf hfuel
      have hm : h.maxH < minv := by omega
      refine ⟨(HeapM.drop_flatten_nil h minv hwf.1 hm).symm, ?_⟩
      intro j
      by_cases hj : j < minv
      · rw [if_pos hj]
        rfl
      · rw [if_neg hj]
        exact hwf.1 j (by omega)
  | succ fuel ih =>
      intro minv h hwf hfuel
      rw [HeapM.drainAux]
      by_cases hm : minv ≤ h.maxH
      · rw [if_pos hm]
        cases hb : h.bucketAt minv with
        | nil =>
            obtain ⟨e1, e2⟩ := ih (minv + 1) h hwf (by omega)
            constructor
            · show (HeapM.drainAux HeapM.passive fuel (minv + 1) h).2
                = (h.buckets.drop minv).flatten
              rw [e1, drop_flatten_getD h.buckets minv,
                show h.buckets.getD minv [] = ([] : List Nat) from hb, List.nil_append]
            · intro j
              show (HeapM.drainAux HeapM.passive fuel (minv + 1) h).1.bucketAt j = _
              rw [e2 j]
              by_cases hj : j < minv
              · rw [if_pos (by omega : j < minv + 1), if_pos hj]
              · by_cases hj2 : j < minv + 1
                · rw [if_pos hj2, if_neg hj]
                  rw [show j = minv by omega, hb]
                · rw [if_neg hj2, if_neg hj]
        | cons nid rest =>
            have hlen : minv < h.buckets.length := by
              by_contra hc
              rw [HeapM.bucketAt, getD_of_le _ _ _ (by omega)] at hb
              exact List.noConfusion hb
            have hmem : nid ∈ h.flags :=
              hwf.2.2.1 minv nid (by rw [hb]; exact List.mem_cons_self nid rest)
            have hh : h.heightOf nid = minv :=
              hwf.2.1 minv nid (by rw [hb]; exact List.mem_cons_self nid rest)
            have hrm : HeapM.passive (h.remove nid) nid = h.pop nid minv rest := by
              show h.remove nid = h.pop nid minv rest
              exact HeapM.remove_spec h minv nid rest hmem hh hb hlen
            have hwf2 := HeapM.WF_pop h minv nid rest ⟨hwf.1, hwf.2.1, hwf.2.2.1, hwf.2.2.2⟩
              hb hlen hm
            have hcnt : (h.pop nid minv rest).count + 1 = h.count :=
              count_set_cons h.buckets minv nid rest hb
            obtain ⟨e1, e2⟩ := ih minv (h.pop nid minv rest) hwf2 (by
              show (h.pop nid minv rest).count + h.maxH + 2 ≤ fuel + minv
              omega)
            constructor
            · show nid :: (HeapM.drainAux HeapM.passive fuel minv
                  (HeapM.passive (h.remove nid) nid)).2
                = (h.buckets.drop minv).flatten
              rw [hrm, e1]
              rw [drop_flatten_getD h.buckets minv,
                show h.buckets.getD minv [] = nid :: rest from hb]
              show nid :: ((h.buckets.set minv rest).drop minv).flatten = _
              rw [drop_flatten_getD (h.buckets.set minv rest) minv, drop_set_succ]
              rw [show (h.buckets.set minv rest).getD minv [] = rest from by
                rw [getD_set_general]
                exact if_pos ⟨rfl, hlen⟩]
              simp
            · intro j
              show (HeapM.drainAux HeapM.passive fuel minv
                  (HeapM.passive (h.remove nid) nid)).1.bucketAt j
                = _
              rw [hrm, e2 j]
              by_cases hj : j < minv
              · rw [if_pos hj, if_pos hj]
                rw [HeapM.pop_bucketAt h minv nid rest hlen j,
                  if_neg (by omega : ¬ j = minv)]
              · rw [if_neg hj, if_neg hj]
      · rw [if_neg hm]
        push_neg at hm
        refine ⟨(HeapM.drop_flatten_nil h minv hwf.1 hm).symm, ?_⟩
        intro j
        by_cases hj : j < minv
        · rw [if_pos hj]
        · rw [if_neg hj]
          exact hwf.1 j (by omega)

theorem h6low_wf : HeapM.WF h6low := by
  refine ⟨?_, ?_, ?_, ?_⟩
  · intro j hj
    have hj2 : 1 < j := hj
    rw [HeapM.bucketAt]
    exact getD_of_le _ _ j (by simp [h6low]; omega)
  · intro j n hn
    match j with
    | 0 => simp [HeapM.bucketAt, h6low] at hn
    | 1 =>
        simp [HeapM.bucketAt, h6low] at hn
        subst hn
        rfl
    | j + 2 => simp [HeapM.bucketAt, h6low] at hn
  · intro j n hn
    match j with
    | 0 => simp [HeapM.bucketAt, h6low] at hn
    | 1 =>
        simp [HeapM.bucketAt, h6low] at hn
        subst hn
        simp [h6low]
    | j + 2 => simp [HeapM.bucketAt, h6low] at hn
  · intro j
    match j with
    | 0 => simp [HeapM.bucketAt, h6low]
    | 1 => simp [HeapM.bucketAt, h6low]
    | j + 2 => simp [HeapM.bucketAt, h6low]

theorem h6pass_wf : HeapM.WF h6pass := by
  refine ⟨?_, ?_, ?_, ?_⟩
  · intro j hj
    have hj2 : 0 < j := hj
    rw [HeapM.bucketAt]
    exact getD_of_le _ _ j (by simp [h6pass]; omega)
  · intro j n hn
    match j with
    | 0 =>
        simp [HeapM.bucketAt, h6pass] at hn
        subst hn
        rfl
    | j + 1 => simp [HeapM.bucketAt, h6pass] at hn
  · intro j n hn
    match j with
    | 0 =>
        simp [HeapM.bucketAt, h6pass] at hn
        subst hn
        simp [h6pass]
    | j + 1 => simp [HeapM.bucketAt, h6pass] at hn
  · intro j
    match j with
    | 0 => simp [HeapM.bucketAt, h6pass]
    | j + 1 => simp [HeapM.bucketAt, h6pass]

/-- C6 counterexample: in the well-formed heap `h6low` (node `1` queued
at height 1), processing node `1` inserts node `2` at height 0 -- at or
below the drain minimum height 1 of that moment -- yet the drain
processes only `[1]`: node `2` is left sitting in bucket 0 with its
`InHeap` flag set, unprocessed in that drain, because the loop only
ascends. -/
theorem claim_C6_counterexample :
    HeapM.WF h6low ∧
    (HeapM.drain processIns 12 h6low).2 = [1] ∧
    ¬ 2 ∈ (HeapM.drain processIns 12 h6low).2 ∧
    (HeapM.drain processIns 12 h6low).1.bucketAt 0 = [2] ∧
    (HeapM.drain processIns 12 h6low).1.flags = [2] :=
  ⟨h6low_wf, rfl, by decide, rfl, rfl⟩

set_option maxHeartbeats 1000000 in
/-- C6 (amended). `PriorityHeap.Drain`: for every well-formed heap and
enough fuel, a drain whose `process` leaves the heap alone processes
exactly the queued entries bucket by bucket -- the concatenation of the
height buckets in ascending height order, FIFO within each bucket -- so
the processed heights ascend; afterwards every bucket is empty and
`max` is reset to 0. A node that `process` inserts at a height EQUAL to
the drain minimum of that moment is still processed in the same drain
(`h6same`: processing `1` at height 1 inserts `2` at height 1, and the
drain processes `[1, 2]`); a node inserted BELOW that minimum is not
(see the counterexample). -/
theorem claim_C6_drain (h : HeapM) (fuel : Nat) (hwf : HeapM.WF h)
    (hfuel : h.count + h.maxH + 2 ≤ fuel) :
    (HeapM.drain HeapM.passive fuel h).2 = h.buckets.flatten ∧
    ((HeapM.drain HeapM.passive fuel h).2.map h.heightOf).Pairwise (fun a b => a ≤ b) ∧
    (HeapM.drain HeapM.passive fuel h).1.maxH = 0 ∧
    (∀ j, (HeapM.drain HeapM.passive fuel h).1.bucketAt j = []) ∧
    (HeapM.drain processIns 12 h6same).2 = [1, 2] := by
  obtain ⟨e1, e2⟩ := HeapM.drainAux_passive fuel 0 h hwf (by omega)
  have hp : (HeapM.drain HeapM.passive fuel h).2 = h.buckets.flatten := by
    show (HeapM.drainAux HeapM.passive fuel 0 h).2 = h.buckets.flatten
    rw [e1, List.drop_zero]
  refine ⟨hp, ?_, rfl, ?_, rfl⟩
  · rw [hp]
    apply sorted_flatten_aux h.buckets h.heightOf 0
    intro i n hn
    have := hwf.2.1 i n hn
    omega
  · intro j
    show (HeapM.drainAux HeapM.passive fuel 0 h).1.bucketAt j = []
    rw [e2 j, if_neg (by omega : ¬ j < 0)]

/-- `claim_C6_drain` at the one-entry heap `h6pass`. -/
theorem claim_C6_drain_witness :
    h6pass.count + h6pass.maxH + 2 ≤ 12 ∧
    (HeapM.drain HeapM.passive 12 h6pass).2 = h6pass.buckets.flatten ∧
    (HeapM.drain HeapM.passive 12 h6pass).1.maxH = 0 :=
  ⟨by decide, (claim_C6_drain h6pass 12 h6pass_wf (by decide)).1,
    (claim_C6_drain h6pass 12 h6pass_wf (by decide)).2.2.1⟩

end Sig
